import Mathlib

/-!
Verification development for the flow-fields particle system.

The development shallowly embeds the TypeScript sources:
* `src/noise.ts`   — `buildPermutationTable`, `SimplexNoise.noise2D`, and the
  `SDF` class (distance field construction, distance transform, gradients,
  bilinear sampling);
* `src/FlowField.ts` — the `FlowField` class (fractal angle, SDF blending,
  setters, regeneration);
* `src/Particle.ts`  — the `Particle` class (`update` with toroidal wrap).

JavaScript numbers are modelled by real numbers; the special IEEE values
`Infinity`, `-Infinity` and `NaN` that arise in the SDF sampling path
(out-of-bounds grid reads return `Infinity`) are modelled explicitly by the
`JSVal` type together with the IEEE arithmetic rules the code exercises.
Integer-valued loops and the distance-transform arithmetic (which stays
rational until the final square root) are modelled executably over `ℚ`/`ℤ`/`ℕ`.
-/

open Real

/-! ### JavaScript numeric values with IEEE special cases -/

/-- A JavaScript double as used by the SDF sampling path: a finite real,
`Infinity`, `-Infinity`, or `NaN`. -/
inductive JSVal where
  | num (r : ℝ)
  | inf
  | ninf
  | nan

namespace JSVal

/-- JS addition restricted to the cases the code can produce. -/
noncomputable def jadd : JSVal → JSVal → JSVal
  | num a, num b => num (a + b)
  | nan, _ => nan
  | _, nan => nan
  | inf, ninf => nan
  | ninf, inf => nan
  | inf, _ => inf
  | _, inf => inf
  | ninf, _ => ninf
  | _, ninf => ninf

/-- JS multiplication of a double by a finite real scalar (`v * w`). -/
noncomputable def jscale : JSVal → ℝ → JSVal
  | num a, w => num (a * w)
  | nan, _ => nan
  | inf, w => if 0 < w then inf else if w = 0 then nan else ninf
  | ninf, w => if 0 < w then ninf else if w = 0 then nan else inf

/-- JS multiplication of two doubles. -/
noncomputable def jmul : JSVal → JSVal → JSVal
  | num a, num b => num (a * b)
  | nan, _ => nan
  | _, nan => nan
  | inf, inf => inf
  | inf, ninf => ninf
  | ninf, inf => ninf
  | ninf, ninf => inf
  | inf, num b => if 0 < b then inf else if b = 0 then nan else ninf
  | num a, inf => if 0 < a then inf else if a = 0 then nan else ninf
  | ninf, num b => if 0 < b then ninf else if b = 0 then nan else inf
  | num a, ninf => if 0 < a then ninf else if a = 0 then nan else inf

/-- JS `Math.sqrt`. -/
noncomputable def jsqrt : JSVal → JSVal
  | num a => if a < 0 then nan else num (Real.sqrt a)
  | inf => inf
  | ninf => nan
  | nan => nan

/-- JS division.  Signed zeroes are not modelled: division by the zero the
code produces (a nonnegative magnitude) behaves as division by `+0`. -/
noncomputable def jdiv : JSVal → JSVal → JSVal
  | nan, _ => nan
  | _, nan => nan
  | num a, num b =>
      if b = 0 then (if a = 0 then nan else if 0 < a then inf else ninf)
      else num (a / b)
  | num _, inf => num 0
  | num _, ninf => num 0
  | inf, inf => nan
  | inf, ninf => nan
  | ninf, inf => nan
  | ninf, ninf => nan
  | inf, num b => if b < 0 then ninf else inf
  | ninf, num b => if b < 0 then inf else ninf

/-- JS `Math.abs`. -/
noncomputable def jabs : JSVal → JSVal
  | num a => num |a|
  | inf => inf
  | ninf => inf
  | nan => nan

/-- JS `<` comparison as a boolean: any comparison involving `NaN` is false. -/
noncomputable def jltB : JSVal → JSVal → Bool
  | num a, num b => decide (a < b)
  | nan, _ => false
  | _, nan => false
  | inf, _ => false
  | _, inf => true
  | ninf, ninf => false
  | ninf, _ => true
  | _, ninf => false

end JSVal

/-! ### `buildPermutationTable` and `SimplexNoise` (src/noise.ts) -/

/-- The twelve fixed gradient directions (`grad3` in src/noise.ts). -/
def grad3 : List (ℤ × ℤ × ℤ) :=
  [(1, 1, 0), (-1, 1, 0), (1, -1, 0), (-1, -1, 0),
   (1, 0, 1), (-1, 0, 1), (1, 0, -1), (-1, 0, -1),
   (0, 1, 1), (0, -1, 1), (0, 1, -1), (0, -1, -1)]

/-- One step of the linear congruential generator: `n = (n * 16807) % 2147483647`.
JavaScript's `%` is the truncated remainder, i.e. `Int.tmod`. -/
def lcgNext (n : ℤ) : ℤ := Int.tmod (n * 16807) 2147483647

/-- Exchange the values of a table (modelled as a function on indices) at two
indices; this is exactly the effect of the three-assignment swap in
`buildPermutationTable` when both indices are in range. -/
def swapFun (t : ℕ → ℕ) (i j : ℕ) : ℕ → ℕ :=
  fun k => if k = i then t j else if k = j then t i else t k

/-- The seeded shuffle loop of `buildPermutationTable`, from index `i` down
to 1.  When the LCG state is negative, `j = n % (i+1)` is negative: in
JavaScript `p[j]` then reads `undefined` (stored into `p[i]` as `0` by the
`Uint8Array` coercion) and the write `p[j] = tmp` is dropped, so that
iteration just zeroes `p[i]`. -/
def shuffle : (ℕ → ℕ) → ℤ → ℕ → (ℕ → ℕ)
  | t, _, 0 => t
  | t, n, i + 1 =>
      let n2 := lcgNext n
      let j := Int.tmod n2 ((i + 1) + 1)
      if j < 0 then shuffle (fun k => if k = i + 1 then 0 else t k) n2 i
      else shuffle (swapFun t (i + 1) j.toNat) n2 i

/-- The 256-entry base table `p` of `buildPermutationTable`, as a function on
indices. -/
def baseTable (seed : ℤ) : ℕ → ℕ := shuffle (fun k => k) seed 255

/-- The duplicated 512-entry table: `perm[k] = p[k & 255]`; for the indices
`0 ≤ k < 512` actually used, `k & 255 = k % 256`. -/
def permTable (seed : ℤ) : ℕ → ℕ := fun k => baseTable seed (k % 256)

/-- The state of a `SimplexNoise` instance: the duplicated permutation table
and the derived `mod 12` table. -/
structure SimplexNoise where
  perm : ℕ → ℕ
  permMod12 : ℕ → ℕ

/-- The `SimplexNoise` constructor for an explicit integer seed:
`permMod12[i] = perm[i] % 12`. -/
def mkSimplexNoise (seed : ℤ) : SimplexNoise :=
  ⟨permTable seed, fun k => permTable seed k % 12⟩

/-- Skew factor `F2 = 0.5 * (sqrt(3) - 1)`. -/
noncomputable def F2 : ℝ := 0.5 * (Real.sqrt 3 - 1)

/-- Unskew factor `G2 = (3 - sqrt(3)) / 6`. -/
noncomputable def G2 : ℝ := (3 - Real.sqrt 3) / 6

/-- The part of `SimplexNoise.noise2D` below the cell computation: it
consumes the simplex cell `(i, j)` and the in-cell offsets `(x0, y0)` (the
remaining lines of the source use only those).  JavaScript's `i & 255` on a
(possibly negative) 32-bit integer equals the nonnegative remainder
`i % 256`. -/
noncomputable def noise2DKernel (sn : SimplexNoise) (i j : ℤ) (x0 y0 : ℝ) : ℝ :=
  let ij1 : ℕ × ℕ := if y0 < x0 then (1, 0) else (0, 1)
  let x1 := x0 - (ij1.1 : ℝ) + G2
  let y1 := y0 - (ij1.2 : ℝ) + G2
  let x2 := x0 - 1 + 2 * G2
  let y2 := y0 - 1 + 2 * G2
  let ii : ℕ := (i % 256).toNat
  let jj : ℕ := (j % 256).toNat
  let ga := grad3.getD (sn.permMod12 (ii + sn.perm jj)) (0, 0, 0)
  let gb := grad3.getD (sn.permMod12 (ii + ij1.1 + sn.perm (jj + ij1.2))) (0, 0, 0)
  let gc := grad3.getD (sn.permMod12 (ii + 1 + sn.perm (jj + 1))) (0, 0, 0)
  let t0 := 0.5 - x0 * x0 - y0 * y0
  let n0 := if 0 ≤ t0 then (t0 * t0) * (t0 * t0) * ((ga.1 : ℝ) * x0 + (ga.2.1 : ℝ) * y0) else 0
  let t1 := 0.5 - x1 * x1 - y1 * y1
  let n1 := if 0 ≤ t1 then (t1 * t1) * (t1 * t1) * ((gb.1 : ℝ) * x1 + (gb.2.1 : ℝ) * y1) else 0
  let t2 := 0.5 - x2 * x2 - y2 * y2
  let n2 := if 0 ≤ t2 then (t2 * t2) * (t2 * t2) * ((gc.1 : ℝ) * x2 + (gc.2.1 : ℝ) * y2) else 0
  70 * (n0 + n1 + n2)

/-- `SimplexNoise.noise2D`: skew to find the simplex cell, unskew to get the
in-cell offsets, then evaluate the corner contributions. -/
noncomputable def noise2D (sn : SimplexNoise) (x y : ℝ) : ℝ :=
  let s := (x + y) * F2
  let i : ℤ := ⌊x + s⌋
  let j : ℤ := ⌊y + s⌋
  let t : ℝ := ((i : ℝ) + (j : ℝ)) * G2
  let X0 := (i : ℝ) - t
  let Y0 := (j : ℝ) - t
  noise2DKernel sn i j (x - X0) (y - Y0)

/-! ### The `SDF` class (distance-field half of src/noise.ts) -/

/-- State of an `SDF` instance.  The `Float32Array` grids are modelled as
lists of reals (row-major, `index = y * gridWidth + x`). -/
structure SDF where
  grid : List ℝ
  gradientX : List ℝ
  gradientY : List ℝ
  gridWidth : ℕ
  gridHeight : ℕ
  resolution : ℝ
  loaded : Bool

namespace SDF

/-- One relaxation `if (dist[idx] > dist[prev] + 1) dist[idx] = dist[prev] + 1`. -/
def relax (d : List ℚ) (idx prev : ℕ) : List ℚ :=
  if d.getD prev 0 + 1 < d.getD idx 0 then d.set idx (d.getD prev 0 + 1) else d

/-- Forward scan of one row (`x` from 1 to `w-1`). -/
def rowForward (d : List ℚ) (w y : ℕ) : List ℚ :=
  (List.range (w - 1)).foldl (fun d k => relax d (y * w + (k + 1)) (y * w + k)) d

/-- Backward scan of one row (`x` from `w-2` down to 0). -/
def rowBackward (d : List ℚ) (w y : ℕ) : List ℚ :=
  (List.range (w - 1)).foldl (fun d k => relax d (y * w + (w - 2 - k)) (y * w + (w - 1 - k))) d

/-- The horizontal chamfer pass of `distanceTransform2D`. -/
def horizontalPass (d : List ℚ) (w h : ℕ) : List ℚ :=
  (List.range h).foldl (fun d y => rowBackward (rowForward d w y) w y) d

/-- Squared column entry `f[q] = dist[q*w+x]^2` used by the vertical pass. -/
def colF (d : List ℚ) (w x q : ℕ) : ℚ :=
  d.getD (q * w + x) 0 * d.getD (q * w + x) 0

/-- The intersection abscissa
`s = ((f[q] + q²) - (f[vk] + vk²)) / (2q - 2 vk)` of the vertical pass. -/
def sVal (f : ℕ → ℚ) (q vk : ℕ) : ℚ :=
  ((f q + (q : ℚ) * q) - (f vk + (vk : ℚ) * vk)) / (2 * (q : ℚ) - 2 * vk)

/-- The inner `while (s <= z[k]) { k--; s = ... }` loop of the lower-envelope
construction.  Returns the final `k` together with the final `s`.  In
JavaScript reaching `k = 0` with `s ≤ z[0] = -INF` would underflow the index;
that state is unreachable (the sentinel `z[0]` is smaller than every
intersection), and the model simply stops at `k = 0` there. -/
def envInner (f : ℕ → ℚ) (z : List ℚ) (v : List ℕ) (q : ℕ) : ℕ → ℕ × ℚ
  | 0 => (0, sVal f q (v.getD 0 0))
  | k + 1 =>
      let s := sVal f q (v.getD (k + 1) 0)
      if s ≤ z.getD (k + 1) 0 then envInner f z v q k else (k + 1, s)

/-- State of the lower-envelope construction: rightmost parabola index `k`,
parabola positions `v`, and boundary abscissas `z`. -/
structure EnvState where
  k : ℕ
  v : List ℕ
  z : List ℚ

/-- The lower-envelope construction over one column (`q` from 1 to `h-1`).
`v` is an `Int32Array(h)` (zero-initialised) and `z` a `Float32Array(h+1)`
(zero-initialised, then `z[0] = -INF`, `z[1] = INF`). -/
def envLoop (f : ℕ → ℚ) (INF : ℚ) (h : ℕ) : EnvState :=
  (List.range (h - 1)).foldl
    (fun st i =>
      let q := i + 1
      let p := envInner f st.z st.v q st.k
      let k3 := p.1 + 1
      { k := k3, v := st.v.set k3 q, z := (st.z.set k3 p.2).set (k3 + 1) INF })
    { k := 0, v := List.replicate h 0,
      z := ((List.replicate (h + 1) 0).set 0 (-INF)).set 1 INF }

/-- The `while (z[k+1] < y) k++` advance of the fill loop.  Reading past the
end of the `Float32Array z` yields `undefined`, whose comparison is false, so
the loop stops there; in-range unwritten entries read `0`, matching `getD`. -/
def fillK (z : List ℚ) (y : ℚ) : ℕ → ℕ → ℕ
  | 0, k => k
  | fuel + 1, k =>
      if k + 1 < z.length ∧ z.getD (k + 1) 0 < y then fillK z y fuel (k + 1) else k

/-- Fill one column with `dist[y*w+x] = f[v[k]] + (y - v[k])²`. -/
def fillCol (d : List ℚ) (w x h : ℕ) (f : ℕ → ℚ) (st : EnvState) : List ℚ :=
  ((List.range h).foldl
    (fun (p : List ℚ × ℕ) (y : ℕ) =>
      let k2 := fillK st.z (y : ℚ) (st.z.length) p.2
      let vk := st.v.getD k2 0
      let idx : ℕ := y * w + x
      (p.1.set idx (f vk + ((y : ℚ) - vk) * ((y : ℚ) - vk)), k2))
    (d, 0)).1

/-- The vertical (Felzenszwalb–Huttenlocher) pass over one column. -/
def verticalCol (d : List ℚ) (w h x : ℕ) (INF : ℚ) : List ℚ :=
  let f := colF d w x
  fillCol d w x h f (envLoop f INF h)

/-- The vertical pass over all columns, with `INF = (w + h)²`. -/
def verticalPass (d : List ℚ) (w h : ℕ) : List ℚ :=
  (List.range w).foldl (fun d x => verticalCol d w h x (((w : ℚ) + h) * ((w : ℚ) + h))) d

/-- `distanceTransform2D`: horizontal chamfer pass, then vertical squared
Euclidean pass. -/
def distanceTransform2D (d : List ℚ) (w h : ℕ) : List ℚ :=
  verticalPass (horizontalPass d w h) w h

/-- `computeDistanceField`: build the two scratch grids (`INF = w + h`),
transform both, and combine into the signed distance grid
`inside ? -sqrt(distInside) * resolution : sqrt(distOutside) * resolution`. -/
noncomputable def computeDistanceField (inside : List Bool) (w h : ℕ) (res : ℝ) : List ℝ :=
  let INFh : ℚ := (w : ℚ) + h
  let distOutside := distanceTransform2D (inside.map fun b => if b then 0 else INFh) w h
  let distInside := distanceTransform2D (inside.map fun b => if b then INFh else 0) w h
  (List.range (w * h)).map fun idx =>
    if inside.getD idx false then -(Real.sqrt ((distInside.getD idx 0 : ℚ) : ℝ)) * res
    else Real.sqrt ((distOutside.getD idx 0 : ℚ) : ℝ) * res

/-- `computeGradients`: central differences of the signed-distance grid
(one-sided at the borders). -/
noncomputable def computeGradients (grid : List ℝ) (w h : ℕ) (res : ℝ) : List ℝ × List ℝ :=
  ((List.range (w * h)).map fun idx =>
      let y := idx / w
      let x := idx % w
      let xa := x - 1
      let xb := min (w - 1) (x + 1)
      (grid.getD (y * w + xb) 0 - grid.getD (y * w + xa) 0) / (((xb : ℝ) - (xa : ℝ)) * res),
   (List.range (w * h)).map fun idx =>
      let y := idx / w
      let x := idx % w
      let ya := y - 1
      let yb := min (h - 1) (y + 1)
      (grid.getD (yb * w + x) 0 - grid.getD (ya * w + x) 0) / (((yb : ℝ) - (ya : ℝ)) * res))

/-- The part of `fromSVG` that follows rasterization: build the signed
distance grid and the gradient grids from the binary inside mask and mark
the field loaded.  (Rasterizing the SVG to the mask is an external
collaborator and is not modelled.) -/
noncomputable def build (inside : List Bool) (w h : ℕ) (res : ℝ) : SDF :=
  let grid := computeDistanceField inside w h res
  let gs := computeGradients grid w h res
  ⟨grid, gs.1, gs.2, w, h, res, true⟩

/-- `getGridValue`: out-of-bounds cells read `Infinity`. -/
noncomputable def getGridValue (g : List ℝ) (w h : ℕ) (x y : ℤ) : JSVal :=
  if x < 0 ∨ (w : ℤ) ≤ x ∨ y < 0 ∨ (h : ℤ) ≤ y then JSVal.inf
  else JSVal.num (g.getD (y * w + x).toNat 0)

/-- `sampleBilinear` over a grid that may produce `Infinity` at the corners. -/
noncomputable def sampleBilinear (sd : SDF) (g : List ℝ) (gx gy : ℝ) : JSVal :=
  let x0 : ℤ := ⌊gx⌋
  let y0 : ℤ := ⌊gy⌋
  let x1 : ℤ := min (x0 + 1) ((sd.gridWidth : ℤ) - 1)
  let y1 : ℤ := min (y0 + 1) ((sd.gridHeight : ℤ) - 1)
  let fx := gx - (x0 : ℝ)
  let fy := gy - (y0 : ℝ)
  let v00 := getGridValue g sd.gridWidth sd.gridHeight x0 y0
  let v10 := getGridValue g sd.gridWidth sd.gridHeight x1 y0
  let v01 := getGridValue g sd.gridWidth sd.gridHeight x0 y1
  let v11 := getGridValue g sd.gridWidth sd.gridHeight x1 y1
  let v0 := JSVal.jadd (JSVal.jscale v00 (1 - fx)) (JSVal.jscale v10 fx)
  let v1 := JSVal.jadd (JSVal.jscale v01 (1 - fx)) (JSVal.jscale v11 fx)
  JSVal.jadd (JSVal.jscale v0 (1 - fy)) (JSVal.jscale v1 fy)

/-- `getDistance`: `Infinity` when not loaded, else the bilinear sample of the
signed-distance grid at `(x / resolution, y / resolution)`. -/
noncomputable def getDistance (sd : SDF) (x y : ℝ) : JSVal :=
  if sd.loaded = false then JSVal.inf
  else sampleBilinear sd sd.grid (x / sd.resolution) (y / sd.resolution)

/-- `getGradient`: `(0,0)` when not loaded; otherwise the bilinear samples of
the gradient grids, normalized to unit length, with `(0,0)` returned when the
magnitude is below `1e-4`. -/
noncomputable def getGradient (sd : SDF) (x y : ℝ) : JSVal × JSVal :=
  if sd.loaded = false then (JSVal.num 0, JSVal.num 0)
  else
    let gx := x / sd.resolution
    let gy := y / sd.resolution
    let gradX := sampleBilinear sd sd.gradientX gx gy
    let gradY := sampleBilinear sd sd.gradientY gx gy
    let len := JSVal.jsqrt (JSVal.jadd (JSVal.jmul gradX gradX) (JSVal.jmul gradY gradY))
    if JSVal.jltB len (JSVal.num 0.0001) then (JSVal.num 0, JSVal.num 0)
    else (JSVal.jdiv gradX len, JSVal.jdiv gradY len)

end SDF

/-! ### The `FlowField` class (src/FlowField.ts) -/

/-- State of a `FlowField` instance. -/
structure FlowField where
  noise : SimplexNoise
  scale : ℝ
  octaves : ℤ
  zOffset : ℝ
  sdf : Option SDF
  sdfStrength : ℝ
  sdfFalloff : ℝ

namespace FlowField

/-- The `FlowField` constructor with an explicit seed: one octave, zero time
offset, no SDF, strength 1, falloff 50. -/
def mk2 (scale : ℝ) (seed : ℤ) : FlowField :=
  ⟨mkSimplexNoise seed, scale, 1, 0, none, 1, 50⟩

/-- `noise3D`: pseudo-3D noise from three 2D samples. -/
noncomputable def noise3D (sn : SimplexNoise) (x y z : ℝ) : ℝ :=
  (noise2D sn x y + noise2D sn (x + 1000) z + noise2D sn (y + 2000) z) / 3

/-- The fBm accumulation loop of `getAngle`, run for `k` octaves.  Returns
`(noiseValue, amplitude, frequency, maxValue)`. -/
noncomputable def fbmLoop (n3 : ℝ → ℝ → ℝ → ℝ) (x y z scale : ℝ) : ℕ → ℝ × ℝ × ℝ × ℝ
  | 0 => (0, 1, scale, 0)
  | k + 1 =>
      let p := fbmLoop n3 x y z scale k
      (p.1 + p.2.1 * n3 (x * p.2.2.1) (y * p.2.2.1) z,
       p.2.1 * 0.5, p.2.2.1 * 2, p.2.2.2 + p.2.1)

/-- `getAngle` with the pseudo-3D noise function abstracted: normalize the
fBm sum by the accumulated weight and map `[-1,1]` to `[0, 2π]`. -/
noncomputable def getAngleWith (n3 : ℝ → ℝ → ℝ → ℝ) (scale z : ℝ) (oct : ℕ) (x y : ℝ) : ℝ :=
  let p := fbmLoop n3 x y z scale oct
  (p.1 / p.2.2.2 + 1) * Real.pi

/-- `FlowField.getAngle` (the `for` loop runs `max 0 octaves` times). -/
noncomputable def getAngle (f : FlowField) (x y : ℝ) : ℝ :=
  getAngleWith (noise3D f.noise) f.scale f.zOffset f.octaves.toNat x y

/-- The vector produced by `getVector` just before the final normalization:
the base vector `(cos angle, sin angle)`, blended with the SDF tangent when
an SDF is attached, loaded, within falloff, and has a nonzero gradient.

The blend branch is entered exactly when the sampled distance is a finite
number below the falloff (for `Infinity`/`NaN` the JavaScript comparison
`absDistance < sdfFalloff` is false); a finite distance forces all four
bilinear corners in bounds, so the sampled gradient is then finite as well,
which the outer match reflects. -/
noncomputable def blendVector (f : FlowField) (x y : ℝ) : ℝ × ℝ :=
  let angle := getAngle f x y
  let vx := Real.cos angle
  let vy := Real.sin angle
  match f.sdf with
  | none => (vx, vy)
  | some sd =>
      if sd.loaded = false then (vx, vy)
      else
        match SDF.getDistance sd x y, SDF.getGradient sd x y with
        | JSVal.num dr, (JSVal.num gx, JSVal.num gy) =>
            if |dr| < f.sdfFalloff ∧ (gx ≠ 0 ∨ gy ≠ 0) then
              let t := |dr| / f.sdfFalloff
              let influence := (1 - t * t) * f.sdfStrength
              let tan : ℝ × ℝ :=
                if dr < 0 then (gx, gy)
                else if 0 ≤ vx * (-gy) + vy * gx then (-gy, gx) else (gy, -gx)
              (vx * (1 - influence) + tan.1 * influence,
               vy * (1 - influence) + tan.2 * influence)
            else (vx, vy)
        | _, _ => (vx, vy)

/-- `getVector`: the blended vector, renormalized when its magnitude exceeds
`1e-4` (and returned unnormalized otherwise). -/
noncomputable def getVector (f : FlowField) (x y : ℝ) : ℝ × ℝ :=
  let bv := blendVector f x y
  let len := Real.sqrt (bv.1 * bv.1 + bv.2 * bv.2)
  if 0.0001 < len then (bv.1 / len, bv.2 / len) else bv

/-- `setScale`. -/
def setScale (f : FlowField) (s : ℝ) : FlowField := { f with scale := s }

/-- `setOctaves`: clamp to `[1, 8]`. -/
def setOctaves (f : FlowField) (n : ℤ) : FlowField :=
  { f with octaves := max 1 (min 8 n) }

/-- `evolve`. -/
def evolve (f : FlowField) (amount : ℝ) : FlowField :=
  { f with zOffset := f.zOffset + amount }

/-- `resetEvolution`. -/
def resetEvolution (f : FlowField) : FlowField := { f with zOffset := 0 }

/-- `regenerate` with an explicit seed (the seedless default draws from
`Math.random()` and is an injected source of ambient randomness). -/
def regenerate (f : FlowField) (seed : ℤ) : FlowField :=
  { f with noise := mkSimplexNoise seed, zOffset := 0 }

/-- `setSDF`. -/
def setSDF (f : FlowField) (o : Option SDF) : FlowField := { f with sdf := o }

/-- `setSDFStrength`: clamp to `[0, 2]`. -/
def setSDFStrength (f : FlowField) (s : ℝ) : FlowField :=
  { f with sdfStrength := max 0 (min 2 s) }

/-- `setSDFFalloff`: clamp to `[1, ∞)`. -/
def setSDFFalloff (f : FlowField) (d : ℝ) : FlowField :=
  { f with sdfFalloff := max 1 d }

end FlowField

/-- Mutating operations available on a `FlowField` (used to state the octave
invariant over arbitrary operation sequences). -/
inductive FFOp where
  | setScale (s : ℝ)
  | setOctaves (n : ℤ)
  | evolve (amount : ℝ)
  | resetEvolution
  | regenerate (seed : ℤ)
  | setSDF (o : Option SDF)
  | setSDFStrength (s : ℝ)
  | setSDFFalloff (d : ℝ)

/-- Apply one operation. -/
def applyOp (f : FlowField) : FFOp → FlowField
  | FFOp.setScale s => f.setScale s
  | FFOp.setOctaves n => f.setOctaves n
  | FFOp.evolve a => f.evolve a
  | FFOp.resetEvolution => f.resetEvolution
  | FFOp.regenerate s => f.regenerate s
  | FFOp.setSDF o => f.setSDF o
  | FFOp.setSDFStrength s => f.setSDFStrength s
  | FFOp.setSDFFalloff d => f.setSDFFalloff d

/-! ### The `Particle` class (src/Particle.ts) -/

/-- State of a `Particle`. -/
structure Particle where
  x : ℝ
  y : ℝ
  prevX : ℝ
  prevY : ℝ
  speed : ℝ
  baseSpeed : ℝ
  width : ℝ
  height : ℝ

namespace Particle

/-- `Particle.update`: save the previous position, advect by the flow vector,
wrap toroidally (sequential `if`s, as in the source), and reset `prevX`/`prevY`
when the post-wrap jump exceeds half the extent. -/
noncomputable def update (p : Particle) (f : FlowField) : Particle :=
  let prevX := p.x
  let prevY := p.y
  let v := FlowField.getVector f p.x p.y
  let xa := p.x + v.1 * p.speed
  let ya := p.y + v.2 * p.speed
  let xb := if xa < 0 then p.width else xa
  let xc := if p.width < xb then 0 else xb
  let yb := if ya < 0 then p.height else ya
  let yc := if p.height < yb then 0 else yb
  let px := if p.width / 2 < |xc - prevX| then xc else prevX
  let py := if p.height / 2 < |yc - prevY| then yc else prevY
  { p with x := xc, y := yc, prevX := px, prevY := py }

end Particle

/-! ### Invariant predicates for the distance transform -/

/-- The cell invariant maintained through both passes of the distance
transform: grid values are nonnegative, and at least `1` on every cell whose
mask value differs from the zero-initialised class `v`. -/
def cellOK (mask : List Bool) (v : Bool) (d : List ℚ) (idx : ℕ) : Prop :=
  0 ≤ d.getD idx 0 ∧ (mask.getD idx false ≠ v → 1 ≤ d.getD idx 0)

/-- The grid invariant: same length as the mask, and `cellOK` at every cell. -/
def gridOK (mask : List Bool) (v : Bool) (d : List ℚ) : Prop :=
  d.length = mask.length ∧ ∀ idx, idx < mask.length → cellOK mask v d idx

/-! ### Concrete states used by counterexamples and witnesses -/

/-- A 4×2 binary mask: the left half inside, the right half outside. -/
def maskStar : List Bool := [true, true, false, false, true, true, false, false]

/-- The distance field built from `maskStar` at resolution 1000. -/
noncomputable def sdfStar : SDF := SDF.build maskStar 4 2 1000

/-- A sample position whose skewed simplex coordinates land exactly on a
lattice point (cell `(2000, 1000)`), so the noise vanishes there. -/
noncomputable def xStar : ℝ := 2000 - 3000 * G2

/-- Companion `y` coordinate for `xStar` (cell offset `(1000, 3000)`). -/
noncomputable def yStar : ℝ := 1000 - 3000 * G2

/-- A `FlowField` with `sdfStar` attached, scale 1, one octave, time offset
`-3000·G2` (reachable via `evolve`), strength `(20001/40000)/(4√3-6) ≈ 0.539`
and falloff `1000` (both inside their clamp ranges). -/
noncomputable def ffStar : FlowField :=
  ⟨mkSimplexNoise 1, 1, 1, -3000 * G2, some sdfStar,
    20001 / 40000 / (4 * Real.sqrt 3 - 6), 1000⟩

/-- Scale used by the particle scenario: with it, the position `(1/100, yC3)`
is mapped onto the simplex lattice cell `(1367, 367)`. -/
noncomputable def scaleC3 : ℝ := 100 * (1367 - 1734 * G2)

/-- The `y` position of the scenario particle. -/
noncomputable def yC3 : ℝ := (367 - 1734 * G2) / scaleC3

/-- A `FlowField` (no SDF) whose angle at `(1/100, yC3)` is exactly `π`. -/
noncomputable def ffC3 : FlowField :=
  ⟨mkSimplexNoise 1, scaleC3, 1, -633 - 1734 * G2, none, 1, 50⟩

/-- A particle at `x = 0.01` whose update step carries it to `width + 0.01`:
bounds 100×100, speed `-100`, flow vector `(-1, 0)`. -/
noncomputable def pC3 : Particle :=
  ⟨1 / 100, yC3, 1 / 200, yC3, -100, 2, 100, 100⟩

/-- The same particle with speed `-1/2`, whose step stays inside bounds. -/
noncomputable def pC3b : Particle :=
  ⟨1 / 100, yC3, 1 / 200, yC3, -(1 / 2), 2, 100, 100⟩

/-! ## Theorems -/

/-! ### Facts about `sqrt 3` -/

theorem sqrt3_mul_self : Real.sqrt 3 * Real.sqrt 3 = 3 :=
  Real.mul_self_sqrt (by norm_num)

theorem sqrt3_pos : (0 : ℝ) < Real.sqrt 3 :=
  Real.sqrt_pos.mpr (by norm_num)

theorem sqrt3_lt_two : Real.sqrt 3 < 2 := by
  nlinarith [sqrt3_mul_self, Real.sqrt_nonneg 3]

theorem one_lt_sqrt3 : (1 : ℝ) < Real.sqrt 3 := by
  nlinarith [sqrt3_mul_self, Real.sqrt_nonneg 3]

/-! ### The noise vanishes at unskewed lattice points -/

theorem noise2DKernel_zero (sn : SimplexNoise) (i j : ℤ) :
    noise2DKernel sn i j 0 0 = 0 := by
  simp only [noise2DKernel]
  rw [if_neg (lt_irrefl (0 : ℝ))]
  norm_num
  have hc1 : ¬ ((-1 + G2) * (-1 + G2) ≤ 1 / 2 - G2 * G2) := by
    rw [G2]; nlinarith [sqrt3_mul_self, Real.sqrt_nonneg 3]
  have hc2 : ¬ ((-1 + 2 * G2) * (-1 + 2 * G2) ≤ 1 / 2 - (-1 + 2 * G2) * (-1 + 2 * G2)) := by
    rw [G2]; nlinarith [sqrt3_mul_self, Real.sqrt_nonneg 3]
  rw [if_neg hc1, if_neg hc2]
  norm_num

theorem noise2D_eq_kernel (sn : SimplexNoise) (x y : ℝ) :
    noise2D sn x y = noise2DKernel sn ⌊x + (x + y) * F2⌋ ⌊y + (x + y) * F2⌋
      (x - ((⌊x + (x + y) * F2⌋ : ℝ) -
        ((⌊x + (x + y) * F2⌋ : ℝ) + (⌊y + (x + y) * F2⌋ : ℝ)) * G2))
      (y - ((⌊y + (x + y) * F2⌋ : ℝ) -
        ((⌊x + (x + y) * F2⌋ : ℝ) + (⌊y + (x + y) * F2⌋ : ℝ)) * G2)) := rfl

theorem noise2D_lattice (sn : SimplexNoise) (i j : ℤ) :
    noise2D sn ((i : ℝ) - ((i : ℝ) + (j : ℝ)) * G2) ((j : ℝ) - ((i : ℝ) + (j : ℝ)) * G2) = 0 := by
  set x : ℝ := (i : ℝ) - ((i : ℝ) + (j : ℝ)) * G2 with hx
  set y : ℝ := (j : ℝ) - ((i : ℝ) + (j : ℝ)) * G2 with hy
  have hxs : x + (x + y) * F2 = (i : ℝ) := by
    rw [hx, hy, F2, G2]
    linear_combination (((i : ℝ) + (j : ℝ)) / 6) * sqrt3_mul_self
  have hys : y + (x + y) * F2 = (j : ℝ) := by
    rw [hx, hy, F2, G2]
    linear_combination (((i : ℝ) + (j : ℝ)) / 6) * sqrt3_mul_self
  have hfi : ⌊x + (x + y) * F2⌋ = i := by rw [hxs]; exact Int.floor_intCast i
  have hfj : ⌊y + (x + y) * F2⌋ = j := by rw [hys]; exact Int.floor_intCast j
  rw [noise2D_eq_kernel, hfi, hfj]
  have hx0 : x - ((i : ℝ) - ((i : ℝ) + (j : ℝ)) * G2) = 0 := by rw [hx]; ring
  have hy0 : y - ((j : ℝ) - ((i : ℝ) + (j : ℝ)) * G2) = 0 := by rw [hy]; ring
  rw [hx0, hy0]
  exact noise2DKernel_zero sn i j

/-! ### C10: frame of `regenerate` -/

/-- C10: `regenerate` replaces the owned noise with a freshly built one and
resets `zOffset` to 0; `scale`, the octave count, the attached SDF reference,
`sdfStrength` and `sdfFalloff` are unchanged. -/
theorem c10_regenerate_frame (f : FlowField) (seed : ℤ) :
    (f.regenerate seed).noise = mkSimplexNoise seed ∧
    (f.regenerate seed).zOffset = 0 ∧
    (f.regenerate seed).scale = f.scale ∧
    (f.regenerate seed).octaves = f.octaves ∧
    (f.regenerate seed).sdf = f.sdf ∧
    (f.regenerate seed).sdfStrength = f.sdfStrength ∧
    (f.regenerate seed).sdfFalloff = f.sdfFalloff :=
  ⟨rfl, rfl, rfl, rfl, rfl, rfl, rfl⟩

/-! ### C8: `regenerate` with a fixed seed is reproducible -/

set_option maxRecDepth 4000 in
/-- C8: regenerating twice with seed 42 yields a state whose `getAngle`
agrees everywhere with the state after one regeneration (indeed the states
are equal); the replaced noise is independent of the previous noise, and
`zOffset` is reset to 0. -/
theorem c8_regenerate_idempotent (f g : FlowField) (x y : ℝ) :
    FlowField.getAngle ((f.regenerate 42).regenerate 42) x y
      = FlowField.getAngle (f.regenerate 42) x y ∧
    (f.regenerate 42).regenerate 42 = f.regenerate 42 ∧
    (f.regenerate 42).noise = (g.regenerate 42).noise ∧
    (f.regenerate 42).zOffset = 0 := by
  have hstruct : (f.regenerate 42).regenerate 42 = f.regenerate 42 := by
    cases f; rfl
  exact ⟨by rw [hstruct], hstruct, rfl, rfl⟩

/-! ### C9: octave clamp -/

theorem octaves_invariant_step (f : FlowField) (op : FFOp)
    (h1 : 1 ≤ f.octaves) (h8 : f.octaves ≤ 8) :
    1 ≤ (applyOp f op).octaves ∧ (applyOp f op).octaves ≤ 8 := by
  cases op with
  | setOctaves n =>
      exact ⟨le_max_left _ _, max_le (by norm_num) (min_le_left _ _)⟩
  | setScale s => exact ⟨h1, h8⟩
  | evolve a => exact ⟨h1, h8⟩
  | resetEvolution => exact ⟨h1, h8⟩
  | regenerate s => exact ⟨h1, h8⟩
  | setSDF o => exact ⟨h1, h8⟩
  | setSDFStrength s => exact ⟨h1, h8⟩
  | setSDFFalloff d => exact ⟨h1, h8⟩

/-- C9: `setOctaves 0` yields 1 and `setOctaves 99` yields 8, and after any
sequence of operations on a freshly constructed `FlowField` the octave count
stays within `[1, 8]`. -/
theorem c9_octave_clamp (scale : ℝ) (seed : ℤ) (ops : List FFOp) (st : FlowField) :
    (1 ≤ (ops.foldl applyOp (FlowField.mk2 scale seed)).octaves ∧
      (ops.foldl applyOp (FlowField.mk2 scale seed)).octaves ≤ 8) ∧
    (st.setOctaves 0).octaves = 1 ∧ (st.setOctaves 99).octaves = 8 := by
  refine ⟨?_, ?_, ?_⟩
  · have key : ∀ (l : List FFOp) (f : FlowField), 1 ≤ f.octaves → f.octaves ≤ 8 →
        1 ≤ (l.foldl applyOp f).octaves ∧ (l.foldl applyOp f).octaves ≤ 8 := by
      intro l
      induction l with
      | nil => intro f h1 h8; exact ⟨h1, h8⟩
      | cons op rest ih =>
          intro f h1 h8
          obtain ⟨g1, g8⟩ := octaves_invariant_step f op h1 h8
          exact ih _ g1 g8
    exact key ops _ (by norm_num [FlowField.mk2]) (by norm_num [FlowField.mk2])
  · show max 1 (min 8 (0 : ℤ)) = 1
    decide
  · show max 1 (min 8 (99 : ℤ)) = 8
    decide

/-! ### C7: angle range -/

theorem fbmLoop_bound (n3 : ℝ → ℝ → ℝ → ℝ) (x y z scale : ℝ)
    (hb : ∀ a b c, |n3 a b c| ≤ 1) (k : ℕ) :
    |(FlowField.fbmLoop n3 x y z scale k).1| ≤ (FlowField.fbmLoop n3 x y z scale k).2.2.2 ∧
      0 < (FlowField.fbmLoop n3 x y z scale k).2.1 := by
  induction k with
  | zero => simp [FlowField.fbmLoop]
  | succ k ih =>
      obtain ⟨h1, h2⟩ := ih
      constructor
      · have hstep : |(FlowField.fbmLoop n3 x y z scale k).2.1 *
            n3 (x * (FlowField.fbmLoop n3 x y z scale k).2.2.1)
              (y * (FlowField.fbmLoop n3 x y z scale k).2.2.1) z|
            ≤ (FlowField.fbmLoop n3 x y z scale k).2.1 := by
          rw [abs_mul, abs_of_pos h2]
          calc (FlowField.fbmLoop n3 x y z scale k).2.1 * |n3 _ _ z|
              ≤ (FlowField.fbmLoop n3 x y z scale k).2.1 * 1 :=
                mul_le_mul_of_nonneg_left (hb _ _ _) (le_of_lt h2)
            _ = (FlowField.fbmLoop n3 x y z scale k).2.1 := mul_one _
        show |(FlowField.fbmLoop n3 x y z scale k).1 + _| ≤ _ + _
        calc |(FlowField.fbmLoop n3 x y z scale k).1 + _|
            ≤ |(FlowField.fbmLoop n3 x y z scale k).1| + _ := abs_add _ _
          _ ≤ _ := by linarith
      · show 0 < (FlowField.fbmLoop n3 x y z scale k).2.1 * 0.5
        linarith

/-- C7: with every pseudo-3D noise sample in `[-1, 1]` (the range the claim
grants the underlying noise) and the octave count in `[1, 8]`, the
amplitude-weighted fBm sum normalized by the total weight lies in `[-1, 1]`
and the resulting angle `(normalized + 1)·π` lies in `[0, 2π]`. -/
theorem c7_angle_range (n3 : ℝ → ℝ → ℝ → ℝ) (scale z x y : ℝ) (oct : ℕ)
    (hb : ∀ a b c, |n3 a b c| ≤ 1) (h1 : 1 ≤ oct) (h8 : oct ≤ 8) :
    (-1 : ℝ) ≤ (FlowField.fbmLoop n3 x y z scale oct).1 /
        (FlowField.fbmLoop n3 x y z scale oct).2.2.2 ∧
    (FlowField.fbmLoop n3 x y z scale oct).1 /
        (FlowField.fbmLoop n3 x y z scale oct).2.2.2 ≤ 1 ∧
    FlowField.getAngleWith n3 scale z oct x y ∈ Set.Icc 0 (2 * Real.pi) := by
  obtain ⟨hnv, _⟩ := fbmLoop_bound n3 x y z scale hb oct
  have hmv : 0 < (FlowField.fbmLoop n3 x y z scale oct).2.2.2 := by
    obtain ⟨k, rfl⟩ : ∃ k, oct = k + 1 := ⟨oct - 1, (Nat.succ_pred_eq_of_pos h1).symm⟩
    obtain ⟨hk1, hk2⟩ := fbmLoop_bound n3 x y z scale hb k
    have hmvk : 0 ≤ (FlowField.fbmLoop n3 x y z scale k).2.2.2 :=
      le_trans (abs_nonneg _) hk1
    show 0 < (FlowField.fbmLoop n3 x y z scale k).2.2.2 +
        (FlowField.fbmLoop n3 x y z scale k).2.1
    linarith
  have habs : |(FlowField.fbmLoop n3 x y z scale oct).1 /
      (FlowField.fbmLoop n3 x y z scale oct).2.2.2| ≤ 1 := by
    rw [abs_div, abs_of_pos hmv]
    exact div_le_one_of_le hnv (le_of_lt hmv)
  obtain ⟨hlo, hhi⟩ := abs_le.mp habs
  refine ⟨hlo, hhi, ?_⟩
  rw [Set.mem_Icc]
  unfold FlowField.getAngleWith
  constructor
  · nlinarith [Real.pi_pos, hlo]
  · nlinarith [Real.pi_pos, hhi]

/-! ### C1 (amended): final normalization dichotomy -/

/-- C1 (amended): `getVector` returns either an exactly unit vector (when the
blended vector's magnitude exceeds `1e-4`) or the unnormalized blended vector
itself, whose magnitude is then at most `1e-4`; in the degenerate case the
result is `(0,0)` only when the blend is exactly zero. -/
theorem c1_unit_or_small (f : FlowField) (x y : ℝ) :
    (Real.sqrt ((FlowField.getVector f x y).1 * (FlowField.getVector f x y).1 +
        (FlowField.getVector f x y).2 * (FlowField.getVector f x y).2) = 1 ∨
      Real.sqrt ((FlowField.getVector f x y).1 * (FlowField.getVector f x y).1 +
        (FlowField.getVector f x y).2 * (FlowField.getVector f x y).2) ≤ 0.0001) ∧
    (Real.sqrt ((FlowField.blendVector f x y).1 * (FlowField.blendVector f x y).1 +
        (FlowField.blendVector f x y).2 * (FlowField.blendVector f x y).2) ≤ 0.0001 →
      FlowField.getVector f x y = FlowField.blendVector f x y) := by
  constructor
  · simp only [FlowField.getVector]
    set bv := FlowField.blendVector f x y with hbv
    split_ifs with h
    · left
      have hnn : (0 : ℝ) ≤ bv.1 * bv.1 + bv.2 * bv.2 :=
        add_nonneg (mul_self_nonneg _) (mul_self_nonneg _)
      have hpos : (0 : ℝ) < Real.sqrt (bv.1 * bv.1 + bv.2 * bv.2) :=
        lt_trans (by norm_num) h
      have hne : Real.sqrt (bv.1 * bv.1 + bv.2 * bv.2) ≠ 0 := ne_of_gt hpos
      have hsq : Real.sqrt (bv.1 * bv.1 + bv.2 * bv.2) *
          Real.sqrt (bv.1 * bv.1 + bv.2 * bv.2) = bv.1 * bv.1 + bv.2 * bv.2 :=
        Real.mul_self_sqrt hnn
      have hsum : bv.1 * bv.1 + bv.2 * bv.2 ≠ 0 := hsq ▸ mul_ne_zero hne hne
      have hval : bv.1 / Real.sqrt (bv.1 * bv.1 + bv.2 * bv.2) *
            (bv.1 / Real.sqrt (bv.1 * bv.1 + bv.2 * bv.2)) +
          bv.2 / Real.sqrt (bv.1 * bv.1 + bv.2 * bv.2) *
            (bv.2 / Real.sqrt (bv.1 * bv.1 + bv.2 * bv.2)) = 1 := by
        rw [div_mul_div_comm, div_mul_div_comm, div_add_div_same, hsq]
        exact div_self hsum
      rw [hval, Real.sqrt_one]
    · right
      exact not_lt.mp h
  · intro hsmall
    simp only [FlowField.getVector]
    rw [if_neg (not_lt.mpr hsmall)]

/-! ### C2: out-of-bounds sampling degrades to non-finite values -/

theorem getGridValue_shape (g : List ℝ) (w h : ℕ) (a b : ℤ) :
    SDF.getGridValue g w h a b = JSVal.inf ∨ ∃ r, SDF.getGridValue g w h a b = JSVal.num r := by
  unfold SDF.getGridValue
  split_ifs
  · exact Or.inl rfl
  · exact Or.inr ⟨_, rfl⟩

theorem getGridValue_ne_ninf (g : List ℝ) (w h : ℕ) (a b : ℤ) :
    SDF.getGridValue g w h a b ≠ JSVal.ninf := by
  rcases getGridValue_shape g w h a b with hs | ⟨r, hs⟩ <;> rw [hs] <;> intro hc <;>
    exact JSVal.noConfusion hc

theorem jscale_ne_ninf (v : JSVal) (w : ℝ) (hw : 0 ≤ w) (hv : v ≠ JSVal.ninf) :
    JSVal.jscale v w ≠ JSVal.ninf := by
  cases v with
  | num r => intro hc; exact JSVal.noConfusion hc
  | inf =>
      simp only [JSVal.jscale]
      rcases lt_or_eq_of_le hw with hw2 | hw2
      · rw [if_pos hw2]; intro hc; exact JSVal.noConfusion hc
      · rw [if_neg (lt_irrefl _ ∘ (hw2 ▸ ·)), if_pos hw2.symm]
        intro hc; exact JSVal.noConfusion hc
  | ninf => exact absurd rfl hv
  | nan => intro hc; exact JSVal.noConfusion hc

theorem jadd_ne_ninf (a b : JSVal) (ha : a ≠ JSVal.ninf) (hb : b ≠ JSVal.ninf) :
    JSVal.jadd a b ≠ JSVal.ninf := by
  cases a <;> cases b <;>
    first
      | exact absurd rfl ha
      | exact absurd rfl hb
      | (intro hc; exact JSVal.noConfusion hc)

theorem jscale_inf_pos (w : ℝ) (hw : 0 < w) : JSVal.jscale JSVal.inf w = JSVal.inf := by
  simp only [JSVal.jscale, if_pos hw]

theorem jscale_nonfinite (v : JSVal) (w : ℝ) (hw : 0 < w)
    (hv : v = JSVal.inf ∨ v = JSVal.nan) :
    JSVal.jscale v w = JSVal.inf ∨ JSVal.jscale v w = JSVal.nan := by
  rcases hv with hv | hv <;> rw [hv]
  · exact Or.inl (jscale_inf_pos w hw)
  · exact Or.inr rfl

theorem jadd_nonfinite (a b : JSVal) (ha : a = JSVal.inf ∨ a = JSVal.nan)
    (hb : b ≠ JSVal.ninf) :
    JSVal.jadd a b = JSVal.inf ∨ JSVal.jadd a b = JSVal.nan := by
  rcases ha with ha | ha <;> rw [ha] <;> cases b <;>
    first
      | exact absurd rfl hb
      | exact Or.inl rfl
      | exact Or.inr rfl

theorem sampleBilinear_oob (sd : SDF) (g : List ℝ) (gx gy : ℝ)
    (h : gx < 0 ∨ (sd.gridWidth : ℝ) ≤ gx ∨ gy < 0 ∨ (sd.gridHeight : ℝ) ≤ gy) :
    SDF.sampleBilinear sd g gx gy = JSVal.inf ∨ SDF.sampleBilinear sd g gx gy = JSVal.nan := by
  have hfx0 : (0 : ℝ) ≤ gx - (⌊gx⌋ : ℝ) := by linarith [Int.floor_le gx]
  have hfx1 : gx - (⌊gx⌋ : ℝ) < 1 := by linarith [Int.lt_floor_add_one gx]
  have hfy0 : (0 : ℝ) ≤ gy - (⌊gy⌋ : ℝ) := by linarith [Int.floor_le gy]
  have hfy1 : gy - (⌊gy⌋ : ℝ) < 1 := by linarith [Int.lt_floor_add_one gy]
  have h1fx : (0 : ℝ) < 1 - (gx - (⌊gx⌋ : ℝ)) := by linarith
  have h1fy : (0 : ℝ) < 1 - (gy - (⌊gy⌋ : ℝ)) := by linarith
  have hv00 : SDF.getGridValue g sd.gridWidth sd.gridHeight ⌊gx⌋ ⌊gy⌋ = JSVal.inf := by
    unfold SDF.getGridValue
    rw [if_pos]
    rcases h with h | h | h | h
    · exact Or.inl (Int.floor_lt.mpr (by exact_mod_cast h))
    · exact Or.inr (Or.inl (Int.le_floor.mpr (by exact_mod_cast h)))
    · exact Or.inr (Or.inr (Or.inl (Int.floor_lt.mpr (by exact_mod_cast h))))
    · exact Or.inr (Or.inr (Or.inr (Int.le_floor.mpr (by exact_mod_cast h))))
  simp only [SDF.sampleBilinear, hv00]
  have hv0 := jadd_nonfinite _ (JSVal.jscale
      (SDF.getGridValue g sd.gridWidth sd.gridHeight
        (min (⌊gx⌋ + 1) ((sd.gridWidth : ℤ) - 1)) ⌊gy⌋) (gx - (⌊gx⌋ : ℝ)))
    (Or.inl (jscale_inf_pos _ h1fx))
    (jscale_ne_ninf _ _ hfx0 (getGridValue_ne_ninf _ _ _ _ _))
  have hv1 := jadd_ne_ninf
    (JSVal.jscale (SDF.getGridValue g sd.gridWidth sd.gridHeight ⌊gx⌋
      (min (⌊gy⌋ + 1) ((sd.gridHeight : ℤ) - 1))) (1 - (gx - (⌊gx⌋ : ℝ))))
    (JSVal.jscale (SDF.getGridValue g sd.gridWidth sd.gridHeight
      (min (⌊gx⌋ + 1) ((sd.gridWidth : ℤ) - 1))
      (min (⌊gy⌋ + 1) ((sd.gridHeight : ℤ) - 1))) (gx - (⌊gx⌋ : ℝ)))
    (jscale_ne_ninf _ _ (le_of_lt h1fx) (getGridValue_ne_ninf _ _ _ _ _))
    (jscale_ne_ninf _ _ hfx0 (getGridValue_ne_ninf _ _ _ _ _))
  exact jadd_nonfinite _ _
    (jscale_nonfinite _ _ h1fy hv0)
    (jscale_ne_ninf _ _ hfy0 hv1)

theorem getDistance_oob (sd : SDF) (x y : ℝ)
    (h : x / sd.resolution < 0 ∨ (sd.gridWidth : ℝ) ≤ x / sd.resolution ∨
      y / sd.resolution < 0 ∨ (sd.gridHeight : ℝ) ≤ y / sd.resolution) :
    SDF.getDistance sd x y = JSVal.inf ∨ SDF.getDistance sd x y = JSVal.nan := by
  unfold SDF.getDistance
  split_ifs
  · exact Or.inl rfl
  · exact sampleBilinear_oob sd sd.grid _ _ h

theorem getGradient_oob (sd : SDF) (x y : ℝ) (hload : sd.loaded = true)
    (h : x / sd.resolution < 0 ∨ (sd.gridWidth : ℝ) ≤ x / sd.resolution ∨
      y / sd.resolution < 0 ∨ (sd.gridHeight : ℝ) ≤ y / sd.resolution) :
    SDF.getGradient sd x y = (JSVal.nan, JSVal.nan) := by
  have hgx := sampleBilinear_oob sd sd.gradientX _ _ h
  have hgy := sampleBilinear_oob sd sd.gradientY _ _ h
  simp only [SDF.getGradient, hload]
  rcases hgx with hgx | hgx <;> rcases hgy with hgy | hgy <;> rw [hgx, hgy] <;>
    simp [JSVal.jmul, JSVal.jsqrt, JSVal.jadd, JSVal.jltB, JSVal.jdiv]

theorem getAngle_setSDF (f : FlowField) (o : Option SDF) (x y : ℝ) :
    FlowField.getAngle (f.setSDF o) x y = FlowField.getAngle f x y := rfl

theorem blendVector_oob (f : FlowField) (sd : SDF) (x y : ℝ) (hsdf : f.sdf = some sd)
    (hoob : x / sd.resolution < 0 ∨ (sd.gridWidth : ℝ) ≤ x / sd.resolution ∨
      y / sd.resolution < 0 ∨ (sd.gridHeight : ℝ) ≤ y / sd.resolution) :
    FlowField.blendVector f x y =
      (Real.cos (FlowField.getAngle f x y), Real.sin (FlowField.getAngle f x y)) := by
  rcases getDistance_oob sd x y hoob with hd | hd <;>
    (simp only [FlowField.blendVector, hsdf]
     split_ifs with hl
     · rfl
     · rw [hd])

theorem blendVector_noSDF (f : FlowField) (x y : ℝ) :
    FlowField.blendVector (f.setSDF none) x y =
      (Real.cos (FlowField.getAngle f x y), Real.sin (FlowField.getAngle f x y)) := rfl

theorem getVector_oob (f : FlowField) (sd : SDF) (x y : ℝ) (hsdf : f.sdf = some sd)
    (hoob : x / sd.resolution < 0 ∨ (sd.gridWidth : ℝ) ≤ x / sd.resolution ∨
      y / sd.resolution < 0 ∨ (sd.gridHeight : ℝ) ≤ y / sd.resolution) :
    FlowField.getVector f x y = FlowField.getVector (f.setSDF none) x y := by
  have h1 := blendVector_oob f sd x y hsdf hoob
  have h2 := blendVector_noSDF f x y
  unfold FlowField.getVector
  rw [h1, h2]

/-- C2 (amended): at a world position whose grid coordinates fall outside
the grid bounds of a loaded SDF, `getDistance` returns a non-finite value
(`Infinity`, or `NaN` when an infinite corner receives a bilinear weight of
exactly zero), `getGradient` returns `(NaN, NaN)` rather than `(0, 0)`, and
`FlowField.getVector` nevertheless equals the unblended noise-flow vector. -/
theorem c2_oob_behavior (f : FlowField) (sd : SDF) (x y : ℝ)
    (hsdf : f.sdf = some sd) (hload : sd.loaded = true)
    (hoob : x / sd.resolution < 0 ∨ (sd.gridWidth : ℝ) ≤ x / sd.resolution ∨
      y / sd.resolution < 0 ∨ (sd.gridHeight : ℝ) ≤ y / sd.resolution) :
    (SDF.getDistance sd x y = JSVal.inf ∨ SDF.getDistance sd x y = JSVal.nan) ∧
    SDF.getGradient sd x y = (JSVal.nan, JSVal.nan) ∧
    FlowField.getVector f x y = FlowField.getVector (f.setSDF none) x y :=
  ⟨getDistance_oob sd x y hoob, getGradient_oob sd x y hload hoob,
    getVector_oob f sd x y hsdf hoob⟩

theorem sdfStar_resolution : sdfStar.resolution = 1000 := rfl

theorem sdfStar_loaded : sdfStar.loaded = true := rfl

/-- C2 counterexample: `sdfStar` is a loaded SDF; at the world position
`(-500, 500)` the grid coordinate `-1/2` falls outside the grid bounds, yet
`getGradient` returns `(NaN, NaN)`, not `(0, 0)` as the claim states. -/
theorem c2_counterexample :
    sdfStar.loaded = true ∧
    (-500 : ℝ) / sdfStar.resolution < 0 ∧
    SDF.getGradient sdfStar (-500) 500 = (JSVal.nan, JSVal.nan) ∧
    SDF.getGradient sdfStar (-500) 500 ≠ (JSVal.num 0, JSVal.num 0) := by
  have hoob : (-500 : ℝ) / sdfStar.resolution < 0 := by
    rw [sdfStar_resolution]; norm_num
  have hg := getGradient_oob sdfStar (-500) 500 sdfStar_loaded (Or.inl hoob)
  refine ⟨sdfStar_loaded, hoob, hg, ?_⟩
  rw [hg]
  intro hc
  exact JSVal.noConfusion (congrArg Prod.fst hc)

/-- C2 witness: the amended out-of-bounds behavior instantiated at `sdfStar`
attached to `ffStar` and the world position `(-500, 500)`. -/
theorem c2_oob_behavior_witness :
    (SDF.getDistance sdfStar (-500) 500 = JSVal.inf ∨
      SDF.getDistance sdfStar (-500) 500 = JSVal.nan) ∧
    SDF.getGradient sdfStar (-500) 500 = (JSVal.nan, JSVal.nan) ∧
    FlowField.getVector ffStar (-500) 500 = FlowField.getVector (ffStar.setSDF none) (-500) 500 :=
  c2_oob_behavior ffStar sdfStar (-500) 500 rfl rfl
    (Or.inl (by rw [sdfStar_resolution]; norm_num))

/-! ### C5: the permutation table -/

theorem swapFun_eq_comp (t : ℕ → ℕ) (a b : ℕ) :
    swapFun t a b = t ∘ (Equiv.swap a b) := by
  funext k
  simp only [swapFun, Function.comp_apply, Equiv.swap_apply_def]
  split_ifs <;> rfl

theorem swap_bijOn (a b : ℕ) (ha : a < 256) (hb : b < 256) :
    Set.BijOn (Equiv.swap a b) (Set.Iio 256) (Set.Iio 256) := by
  have hmaps : Set.MapsTo (Equiv.swap a b) (Set.Iio 256) (Set.Iio 256) := by
    intro k hk
    simp only [Set.mem_Iio] at hk ⊢
    rw [Equiv.swap_apply_def]
    split_ifs <;> first | exact hb | exact ha | exact hk
  refine ⟨hmaps, (Equiv.swap a b).injective.injOn, fun m hm => ?_⟩
  refine ⟨Equiv.swap a b m, hmaps hm, ?_⟩
  exact Equiv.swap_apply_self a b m

theorem shuffle_bijOn (i : ℕ) :
    i ≤ 255 → ∀ (n : ℤ) (t : ℕ → ℕ), 0 ≤ n →
    Set.BijOn t (Set.Iio 256) (Set.Iio 256) →
    Set.BijOn (shuffle t n i) (Set.Iio 256) (Set.Iio 256) := by
  induction i with
  | zero => exact fun _ n t _ ht => ht
  | succ i ih =>
      intro hi n t hn ht
      have hn2 : 0 ≤ lcgNext n := by
        unfold lcgNext
        exact Int.tmod_nonneg _ (mul_nonneg hn (by norm_num))
      have hj0 : 0 ≤ Int.tmod (lcgNext n) (((i : ℤ) + 1) + 1) :=
        Int.tmod_nonneg _ hn2
      have hjlt : Int.tmod (lcgNext n) (((i : ℤ) + 1) + 1) < ((i : ℤ) + 1) + 1 := by
        have := Int.tmod_lt_of_pos (lcgNext n) (b := ((i : ℤ) + 1) + 1) (by positivity)
        exact this
      simp only [shuffle]
      rw [if_neg (not_lt.mpr (by exact_mod_cast hj0))]
      apply ih (by omega) _ _ hn2
      rw [swapFun_eq_comp]
      refine Set.BijOn.comp ht (swap_bijOn (i + 1) _ (by omega) ?_)
      omega

/-- C5 (amended): for every nonnegative integer seed, the 256-entry base
table is a permutation of `0..255`; for every integer seed the derived
512-entry tables satisfy `perm[k] = p[k & 255]` and
`permMod12[k] = perm[k] % 12` for `k < 512`. -/
theorem c5_permutation (seed : ℤ) (hseed : 0 ≤ seed) (k : ℕ) (hk : k < 512) :
    Set.BijOn (baseTable seed) (Set.Iio 256) (Set.Iio 256) ∧
    (mkSimplexNoise seed).perm k = baseTable seed (Nat.land k 255) ∧
    (mkSimplexNoise seed).permMod12 k = (mkSimplexNoise seed).perm k % 12 := by
  refine ⟨?_, ?_, rfl⟩
  · exact shuffle_bijOn 255 (le_refl _) seed _ hseed (Set.bijOn_id _)
  · show baseTable seed (k % 256) = baseTable seed (Nat.land k 255)
    congr 1
    have hland : k &&& 2 ^ 8 - 1 = k % 2 ^ 8 := Nat.and_pow_two_sub_one_eq_mod k 8
    norm_num at hland
    exact hland.symm

/-- C5 witness: the amended statement instantiated at seed 1 and index 7. -/
theorem c5_permutation_witness :
    (0 : ℤ) ≤ 1 ∧ (7 : ℕ) < 512 ∧
    (Set.BijOn (baseTable 1) (Set.Iio 256) (Set.Iio 256) ∧
     (mkSimplexNoise 1).perm 7 = baseTable 1 (Nat.land 7 255) ∧
     (mkSimplexNoise 1).permMod12 7 = (mkSimplexNoise 1).perm 7 % 12) :=
  ⟨by norm_num, by norm_num, c5_permutation 1 (by norm_num) 7 (by norm_num)⟩

set_option maxRecDepth 10000 in
/-- C5 counterexample: for the integer seed `-1` the LCG state stays
negative, so `j = n % (i+1)` is negative; writing `p[i] = p[j]` stores `0`
(the `Uint8Array` coercion of `undefined`) and the write to `p[j]` is
dropped, leaving duplicate zeroes: the base table is not a permutation. -/
theorem c5_counterexample :
    baseTable (-1) 254 = 0 ∧ baseTable (-1) 255 = 0 ∧
    ¬ Set.BijOn (baseTable (-1)) (Set.Iio 256) (Set.Iio 256) := by
  have h254 : baseTable (-1) 254 = 0 := by decide
  have h255 : baseTable (-1) 255 = 0 := by decide
  refine ⟨h254, h255, fun hb => ?_⟩
  have h := hb.injOn (show (254 : ℕ) ∈ Set.Iio 256 by norm_num)
    (show (255 : ℕ) ∈ Set.Iio 256 by norm_num) (by rw [h254, h255])
  exact absurd h (by norm_num)

/-! ### C4: sign of the computed distance field -/

theorem getD_set (l : List ℚ) (i m : ℕ) (x : ℚ) :
    (l.set i x).getD m 0 = if i = m ∧ i < l.length then x else l.getD m 0 := by
  simp only [List.getD_eq_getElem?_getD, List.getElem?_set]
  rcases eq_or_ne i m with rfl | hne
  · rcases lt_or_ge i l.length with hlt | hge
    · simp [hlt]
    · simp [not_lt.mpr hge, List.getElem?_eq_none hge]
  · simp [hne]

theorem getD_map_bool (f : Bool → ℚ) (mask : List Bool) (m : ℕ) (hm : m < mask.length) :
    (mask.map f).getD m 0 = f (mask.getD m false) := by
  simp only [List.getD_eq_getElem?_getD, List.getElem?_map, List.getElem?_eq_getElem hm]
  rfl

theorem gridOK_getD_nonneg (mask : List Bool) (v : Bool) (d : List ℚ)
    (h : gridOK mask v d) (p : ℕ) : 0 ≤ d.getD p 0 := by
  rcases lt_or_ge p mask.length with hp | hp
  · exact (h.2 p hp).1
  · rw [List.getD_eq_getElem?_getD, List.getElem?_eq_none (by rw [h.1]; exact hp)]
    norm_num

theorem set_cell_gridOK (mask : List Bool) (v : Bool) (g : List ℚ) (idx : ℕ) (val : ℚ)
    (hg : gridOK mask v g) (h0 : 0 ≤ val) (h1 : mask.getD idx false ≠ v → 1 ≤ val) :
    gridOK mask v (g.set idx val) := by
  obtain ⟨hlen, hcell⟩ := hg
  refine ⟨by rw [List.length_set]; exact hlen, fun m hmlt => ?_⟩
  unfold cellOK
  rw [getD_set]
  split_ifs with hw
  · obtain ⟨rfl, _⟩ := hw
    exact ⟨h0, fun hm => h1 hm⟩
  · exact hcell m hmlt

theorem foldl_preserve {σ α : Type} (P : σ → Prop) (f : σ → α → σ) :
    ∀ (l : List α), (∀ s a, a ∈ l → P s → P (f s a)) → ∀ s, P s → P (l.foldl f s) := by
  intro l
  induction l with
  | nil => exact fun _ s h => h
  | cons a rest ih =>
      intro hf s h
      exact ih (fun s b hb hs => hf s b (List.mem_cons_of_mem a hb) hs) _
        (hf s a (List.mem_cons_self a rest) h)

theorem relax_gridOK (mask : List Bool) (v : Bool) (d : List ℚ) (idx prev : ℕ)
    (h : gridOK mask v d) : gridOK mask v (SDF.relax d idx prev) := by
  unfold SDF.relax
  split_ifs with hcond
  · have h0 := gridOK_getD_nonneg mask v d h prev
    exact set_cell_gridOK mask v d idx _ h (by linarith) (fun _ => by linarith)
  · exact h

theorem rowForward_gridOK (mask : List Bool) (v : Bool) (d : List ℚ) (w y : ℕ)
    (h : gridOK mask v d) : gridOK mask v (SDF.rowForward d w y) := by
  unfold SDF.rowForward
  exact foldl_preserve _ _ _ (fun d k _ hd => relax_gridOK mask v d _ _ hd) d h

theorem rowBackward_gridOK (mask : List Bool) (v : Bool) (d : List ℚ) (w y : ℕ)
    (h : gridOK mask v d) : gridOK mask v (SDF.rowBackward d w y) := by
  unfold SDF.rowBackward
  exact foldl_preserve _ _ _ (fun d k _ hd => relax_gridOK mask v d _ _ hd) d h

theorem horizontalPass_gridOK (mask : List Bool) (v : Bool) (d : List ℚ) (w h : ℕ)
    (hg : gridOK mask v d) : gridOK mask v (SDF.horizontalPass d w h) := by
  unfold SDF.horizontalPass
  exact foldl_preserve _ _ _
    (fun d y _ hd => rowBackward_gridOK mask v _ w y (rowForward_gridOK mask v d w y hd)) d hg

theorem colF_nonneg (d : List ℚ) (w x q : ℕ) : 0 ≤ SDF.colF d w x q := by
  unfold SDF.colF
  exact mul_self_nonneg _

theorem sq_dist_ge_one (y vk : ℕ) (hne : vk ≠ y) :
    (1 : ℚ) ≤ ((y : ℚ) - vk) * ((y : ℚ) - vk) := by
  rcases lt_or_gt_of_ne hne with hlt | hgt
  · have : (vk : ℚ) + 1 ≤ (y : ℚ) := by exact_mod_cast Nat.succ_le_of_lt hlt
    nlinarith
  · have : (y : ℚ) + 1 ≤ (vk : ℚ) := by exact_mod_cast Nat.succ_le_of_lt hgt
    nlinarith

theorem fillCol_gridOK (mask : List Bool) (v : Bool) (d e : List ℚ) (w x h : ℕ)
    (st : SDF.EnvState) (hx : x < w) (hm : mask.length = w * h)
    (hd : gridOK mask v d) (he : gridOK mask v e) :
    gridOK mask v (SDF.fillCol e w x h (SDF.colF d w x) st) := by
  unfold SDF.fillCol
  have key := foldl_preserve (σ := List ℚ × ℕ) (fun p => gridOK mask v p.1)
    (fun p y =>
      (p.1.set (y * w + x)
        (SDF.colF d w x (st.v.getD (SDF.fillK st.z (y : ℚ) st.z.length p.2) 0) +
          ((y : ℚ) - (st.v.getD (SDF.fillK st.z (y : ℚ) st.z.length p.2) 0)) *
          ((y : ℚ) - (st.v.getD (SDF.fillK st.z (y : ℚ) st.z.length p.2) 0))),
       SDF.fillK st.z (y : ℚ) st.z.length p.2))
    (List.range h) ?step (e, 0) he
  · exact key
  case step =>
    intro p y hy hp
    have hyh : y < h := List.mem_range.mp hy
    refine set_cell_gridOK mask v p.1 _ _ hp
      (add_nonneg (colF_nonneg d w x _) (mul_self_nonneg _)) ?_
    intro hmask
    set vk := st.v.getD (SDF.fillK st.z (y : ℚ) st.z.length p.2) 0 with hvk
    rcases eq_or_ne vk y with hvy | hvy
    · rw [hvy]
      have hidx : y * w + x < mask.length := by
        rw [hm]
        calc y * w + x < y * w + w := by omega
          _ = (y + 1) * w := by ring
          _ ≤ h * w := Nat.mul_le_mul_right w hyh
          _ = w * h := Nat.mul_comm h w
      have h1 : 1 ≤ d.getD (y * w + x) 0 := (hd.2 _ hidx).2 hmask
      have hf : 1 ≤ SDF.colF d w x y := by
        unfold SDF.colF
        nlinarith
      nlinarith [mul_self_nonneg ((y : ℚ) - (y : ℚ))]
    · have hsq := sq_dist_ge_one y vk hvy
      have hf := colF_nonneg d w x vk
      linarith

theorem verticalCol_gridOK (mask : List Bool) (v : Bool) (d : List ℚ) (w h x : ℕ)
    (INF : ℚ) (hx : x < w) (hm : mask.length = w * h) (hd : gridOK mask v d) :
    gridOK mask v (SDF.verticalCol d w h x INF) := by
  unfold SDF.verticalCol
  exact fillCol_gridOK mask v d d w x h _ hx hm hd hd

theorem verticalPass_gridOK (mask : List Bool) (v : Bool) (d : List ℚ) (w h : ℕ)
    (hm : mask.length = w * h) (hd : gridOK mask v d) :
    gridOK mask v (SDF.verticalPass d w h) := by
  unfold SDF.verticalPass
  exact foldl_preserve _ _ _
    (fun d x hx hd => verticalCol_gridOK mask v d w h x _ (List.mem_range.mp hx) hm hd) d hd

theorem distanceTransform2D_gridOK (mask : List Bool) (v : Bool) (d : List ℚ) (w h : ℕ)
    (hm : mask.length = w * h) (hd : gridOK mask v d) :
    gridOK mask v (SDF.distanceTransform2D d w h) := by
  unfold SDF.distanceTransform2D
  exact verticalPass_gridOK mask v _ w h hm (horizontalPass_gridOK mask v d w h hd)

theorem init_gridOK (mask : List Bool) (v : Bool) (INFh : ℚ) (hINF : 1 ≤ INFh) :
    gridOK mask v (mask.map fun b => if b = v then 0 else INFh) := by
  refine ⟨List.length_map mask _, fun m hm => ?_⟩
  unfold cellOK
  rw [getD_map_bool _ mask m hm]
  split_ifs with hb
  · exact ⟨le_refl 0, fun hc => absurd hb hc⟩
  · exact ⟨by linarith, fun _ => hINF⟩

theorem getD_range_map (n : ℕ) (F : ℕ → ℝ) (m : ℕ) (hm : m < n) :
    ((List.range n).map F).getD m 0 = F m := by
  simp [List.getD_eq_getElem?_getD, List.getElem?_map, List.getElem?_range hm]

/-- C4: for every binary mask of positive width and height, each cell of the
signed-distance grid produced by `computeDistanceField` is strictly negative
iff the cell is inside the mask, and strictly positive iff it is outside. -/
theorem c4_sdf_signs (mask : List Bool) (w h : ℕ) (res : ℝ)
    (hw : 1 ≤ w) (hh : 1 ≤ h) (hm : mask.length = w * h) (hres : 0 < res)
    (idx : ℕ) (hidx : idx < w * h) :
    ((SDF.computeDistanceField mask w h res).getD idx 0 < 0 ↔ mask.getD idx false = true) ∧
    (0 < (SDF.computeDistanceField mask w h res).getD idx 0 ↔ mask.getD idx false = false) := by
  have hINF : (1 : ℚ) ≤ (w : ℚ) + h := by
    have h2 : (1 : ℕ) ≤ w + h := by omega
    exact_mod_cast h2
  have hidxm : idx < mask.length := by rw [hm]; exact hidx
  have hO : gridOK mask true
      (SDF.distanceTransform2D (mask.map fun b => if b then 0 else ((w : ℚ) + h)) w h) :=
    distanceTransform2D_gridOK mask true _ w h hm (init_gridOK mask true _ hINF)
  have hI : gridOK mask false
      (SDF.distanceTransform2D (mask.map fun b => if b then ((w : ℚ) + h) else 0) w h) := by
    have hfun : (fun b => if b then ((w : ℚ) + h) else 0) =
        (fun b => if b = false then (0 : ℚ) else ((w : ℚ) + h)) := by
      funext b; cases b <;> rfl
    rw [hfun]
    exact distanceTransform2D_gridOK mask false _ w h hm (init_gridOK mask false _ hINF)
  simp only [SDF.computeDistanceField]
  rw [getD_range_map _ _ idx hidx]
  cases hmaskb : mask.getD idx false
  · have h1 : 1 ≤ (SDF.distanceTransform2D
        (mask.map fun b => if b then 0 else ((w : ℚ) + h)) w h).getD idx 0 :=
      (hO.2 idx hidxm).2 (by rw [hmaskb]; decide)
    have hpos : 0 < Real.sqrt (((SDF.distanceTransform2D
        (mask.map fun b => if b then 0 else ((w : ℚ) + h)) w h).getD idx 0 : ℝ)) :=
      Real.sqrt_pos.mpr (by exact_mod_cast lt_of_lt_of_le zero_lt_one h1)
    have hmul := mul_pos hpos hres
    rw [if_neg (by decide : ¬((false : Bool) = true))]
    constructor
    · constructor
      · intro hlt; exact absurd hlt (not_lt.mpr hmul.le)
      · intro hft; exact absurd hft (by decide)
    · exact ⟨fun _ => rfl, fun _ => hmul⟩
  · have h1 : 1 ≤ (SDF.distanceTransform2D
        (mask.map fun b => if b then ((w : ℚ) + h) else 0) w h).getD idx 0 :=
      (hI.2 idx hidxm).2 (by rw [hmaskb]; decide)
    have hpos : 0 < Real.sqrt (((SDF.distanceTransform2D
        (mask.map fun b => if b then ((w : ℚ) + h) else 0) w h).getD idx 0 : ℝ)) :=
      Real.sqrt_pos.mpr (by exact_mod_cast lt_of_lt_of_le zero_lt_one h1)
    have hmul := mul_pos hpos hres
    have hneg : -(Real.sqrt (((SDF.distanceTransform2D
        (mask.map fun b => if b then ((w : ℚ) + h) else 0) w h).getD idx 0 : ℝ))) * res < 0 := by
      rw [neg_mul]; exact neg_lt_zero.mpr hmul
    rw [if_pos rfl]
    constructor
    · exact ⟨fun _ => rfl, fun _ => hneg⟩
    · constructor
      · intro h0; exact absurd h0 (not_lt.mpr hneg.le)
      · intro htf; exact absurd htf (by decide)

theorem c4_sdf_signs_witness :
    ((SDF.computeDistanceField maskStar 4 2 1000).getD 0 0 < 0 ↔ maskStar.getD 0 false = true) ∧
    (0 < (SDF.computeDistanceField maskStar 4 2 1000).getD 0 0 ↔ maskStar.getD 0 false = false) :=
  c4_sdf_signs maskStar 4 2 1000 (by decide) (by decide) (by decide) (by norm_num) 0 (by decide)

/-! ### C3: particle wraparound and `prevX` -/

theorem scaleC3_pos : (0 : ℝ) < scaleC3 := by
  rw [scaleC3, G2]
  nlinarith [sqrt3_mul_self, Real.sqrt_nonneg 3]

theorem getAngleWith_one (n3 : ℝ → ℝ → ℝ → ℝ) (scale z x y : ℝ) :
    FlowField.getAngleWith n3 scale z 1 x y = (n3 (x * scale) (y * scale) z + 1) * Real.pi := by
  have h1 : FlowField.fbmLoop n3 x y z scale 1 =
      (0 + 1 * n3 (x * scale) (y * scale) z, 1 * 0.5, scale * 2, 0 + 1) := rfl
  show ((FlowField.fbmLoop n3 x y z scale 1).1 /
      (FlowField.fbmLoop n3 x y z scale 1).2.2.2 + 1) * Real.pi =
    (n3 (x * scale) (y * scale) z + 1) * Real.pi
  rw [h1]
  norm_num

theorem getAngle_ffC3 : FlowField.getAngle ffC3 (1 / 100) yC3 = Real.pi := by
  have hsp : scaleC3 ≠ 0 := ne_of_gt scaleC3_pos
  have ha : noise2D (mkSimplexNoise 1) (1367 - 1734 * G2) (367 - 1734 * G2) = 0 := by
    have h := noise2D_lattice (mkSimplexNoise 1) 1367 367
    rw [show ((1367 : ℤ) : ℝ) - (((1367 : ℤ) : ℝ) + ((367 : ℤ) : ℝ)) * G2 = 1367 - 1734 * G2 by
          push_cast; ring,
        show ((367 : ℤ) : ℝ) - (((1367 : ℤ) : ℝ) + ((367 : ℤ) : ℝ)) * G2 = 367 - 1734 * G2 by
          push_cast; ring] at h
    exact h
  have hb : noise2D (mkSimplexNoise 1) (2367 - 1734 * G2) (-633 - 1734 * G2) = 0 := by
    have h := noise2D_lattice (mkSimplexNoise 1) 2367 (-633)
    rw [show ((2367 : ℤ) : ℝ) - (((2367 : ℤ) : ℝ) + ((-633 : ℤ) : ℝ)) * G2 = 2367 - 1734 * G2 by
          push_cast; ring,
        show ((-633 : ℤ) : ℝ) - (((2367 : ℤ) : ℝ) + ((-633 : ℤ) : ℝ)) * G2 = -633 - 1734 * G2 by
          push_cast; ring] at h
    exact h
  have hX : (1 / 100 : ℝ) * scaleC3 = 1367 - 1734 * G2 := by rw [scaleC3]; ring
  have hY : yC3 * scaleC3 = 367 - 1734 * G2 := by rw [yC3]; exact div_mul_cancel₀ _ hsp
  have h3 : FlowField.noise3D (mkSimplexNoise 1) (1 / 100 * scaleC3) (yC3 * scaleC3)
      (-633 - 1734 * G2) = 0 := by
    unfold FlowField.noise3D
    rw [hX, hY,
        show (1367 - 1734 * G2 : ℝ) + 1000 = 2367 - 1734 * G2 by ring,
        show (367 - 1734 * G2 : ℝ) + 2000 = 2367 - 1734 * G2 by ring,
        ha, hb]
    norm_num
  unfold FlowField.getAngle
  rw [show ffC3.noise = mkSimplexNoise 1 from rfl, show ffC3.scale = scaleC3 from rfl,
      show ffC3.zOffset = -633 - 1734 * G2 from rfl, show ffC3.octaves.toNat = 1 from rfl,
      getAngleWith_one, h3]
  norm_num

theorem getVector_ffC3 : FlowField.getVector ffC3 (1 / 100) yC3 = (-1, 0) := by
  have hbv : FlowField.blendVector ffC3 (1 / 100) yC3 = (-1, 0) := by
    show (Real.cos (FlowField.getAngle ffC3 (1 / 100) yC3),
          Real.sin (FlowField.getAngle ffC3 (1 / 100) yC3)) = (-1, 0)
    rw [getAngle_ffC3, Real.cos_pi, Real.sin_pi]
  simp only [FlowField.getVector]
  rw [hbv]
  norm_num [Real.sqrt_one]

/-- C3 (amended): a particle whose step carries it past the right edge wraps
to `x = 0` and ends the step with `prevX` equal to its pre-step `x` whenever
the wrapped jump `|0 - x|` does not exceed half the width — so `prevX = x`
holds after such a step only if the particle started exactly at `x = 0`; a
step that stays within bounds (with a jump of at most half the width) also
ends with `prevX` equal to the pre-step `x`. -/
theorem c3_wrap_behavior (p : Particle) (f : FlowField) :
    (0 ≤ p.width →
      p.width < p.x + (FlowField.getVector f p.x p.y).1 * p.speed →
      |0 - p.x| ≤ p.width / 2 →
      (p.update f).x = 0 ∧ (p.update f).prevX = p.x ∧
        ((p.update f).prevX = (p.update f).x ↔ p.x = 0)) ∧
    (0 ≤ p.x + (FlowField.getVector f p.x p.y).1 * p.speed →
      p.x + (FlowField.getVector f p.x p.y).1 * p.speed ≤ p.width →
      |p.x + (FlowField.getVector f p.x p.y).1 * p.speed - p.x| ≤ p.width / 2 →
      (p.update f).x = p.x + (FlowField.getVector f p.x p.y).1 * p.speed ∧
      (p.update f).prevX = p.x) := by
  constructor
  · intro h0w hwrap hnear
    have hxa : ¬(p.x + (FlowField.getVector f p.x p.y).1 * p.speed < 0) :=
      not_lt.mpr (le_of_lt (lt_of_le_of_lt h0w hwrap))
    simp only [Particle.update]
    rw [if_neg hxa, if_pos hwrap, if_neg (not_lt.mpr hnear)]
    exact ⟨rfl, rfl, Iff.rfl⟩
  · intro h0 hw hnear
    have hxa : ¬(p.x + (FlowField.getVector f p.x p.y).1 * p.speed < 0) := not_lt.mpr h0
    simp only [Particle.update]
    rw [if_neg hxa, if_neg (not_lt.mpr hw), if_neg (not_lt.mpr hnear)]
    exact ⟨rfl, rfl⟩

/-- C3 counterexample: the particle `pC3` starts at `x = 0.01` and its step
carries it to `width + 0.01`, so it wraps; the step ends with `x = 0` but
`prevX = 0.01`, so `prevX ≠ x`, contrary to the claim. -/
theorem c3_counterexample :
    pC3.x = 1 / 100 ∧
    pC3.x + (FlowField.getVector ffC3 pC3.x pC3.y).1 * pC3.speed = pC3.width + 1 / 100 ∧
    (pC3.update ffC3).x = 0 ∧
    (pC3.update ffC3).prevX = 1 / 100 ∧
    (pC3.update ffC3).prevX ≠ (pC3.update ffC3).x := by
  have hv : FlowField.getVector ffC3 pC3.x pC3.y = (-1, 0) := getVector_ffC3
  have hux : (pC3.update ffC3).x = 0 := by
    simp only [Particle.update, hv]
    norm_num [pC3]
  have hup : (pC3.update ffC3).prevX = 1 / 100 := by
    simp only [Particle.update, hv]
    norm_num [pC3, abs_neg, abs_of_pos]
  refine ⟨rfl, ?_, hux, hup, ?_⟩
  · rw [hv]
    norm_num [pC3]
  · rw [hux, hup]
    norm_num

/-- C3 witness: the wrap part applied to the particle `pC3` (step from
`x = 0.01` to `width + 0.01`) and the in-bounds part applied to `pC3b`
(step from `x = 0.01` to `x = 0.51`), both over the field `ffC3`. -/
theorem c3_wrap_behavior_witness :
    ((pC3.update ffC3).x = 0 ∧ (pC3.update ffC3).prevX = pC3.x ∧
      ((pC3.update ffC3).prevX = (pC3.update ffC3).x ↔ pC3.x = 0)) ∧
    ((pC3b.update ffC3).x =
        pC3b.x + (FlowField.getVector ffC3 pC3b.x pC3b.y).1 * pC3b.speed ∧
      (pC3b.update ffC3).prevX = pC3b.x) := by
  have hv : FlowField.getVector ffC3 pC3.x pC3.y = (-1, 0) := getVector_ffC3
  have hvb : FlowField.getVector ffC3 pC3b.x pC3b.y = (-1, 0) := getVector_ffC3
  constructor
  · exact (c3_wrap_behavior pC3 ffC3).1
      (by norm_num [pC3])
      (by rw [hv]; norm_num [pC3])
      (by norm_num [pC3, abs_neg, abs_of_pos])
  · exact (c3_wrap_behavior pC3b ffC3).2
      (by rw [hvb]; norm_num [pC3b])
      (by rw [hvb]; norm_num [pC3b])
      (by rw [hvb]; norm_num [pC3b, abs_neg, abs_of_pos])

/-! ### C1: the blended vector can be tiny but nonzero -/

theorem dO_star :
    SDF.distanceTransform2D
      (maskStar.map fun b => if b then 0 else (((4 : ℕ) : ℚ) + ((2 : ℕ) : ℚ))) 4 2
      = [0, 0, 1, 4, 0, 0, 1, 4] := by decide!

theorem dI_star :
    SDF.distanceTransform2D
      (maskStar.map fun b => if b then (((4 : ℕ) : ℚ) + ((2 : ℕ) : ℚ)) else 0) 4 2
      = [4, 1, 0, 0, 4, 1, 0, 0] := by decide!

theorem sqrt_q4 : Real.sqrt (((4 : ℚ) : ℝ)) = 2 := by
  rw [show (((4 : ℚ)) : ℝ) = (2 : ℝ) ^ 2 by norm_num, Real.sqrt_sq (by norm_num : (0 : ℝ) ≤ 2)]

theorem sqrt_q1 : Real.sqrt (((1 : ℚ) : ℝ)) = 1 := by
  rw [show (((1 : ℚ)) : ℝ) = (1 : ℝ) by norm_num, Real.sqrt_one]

theorem cdf_vals :
    (SDF.computeDistanceField maskStar 4 2 1000).getD 0 0 = -2000 ∧
    (SDF.computeDistanceField maskStar 4 2 1000).getD 1 0 = -1000 ∧
    (SDF.computeDistanceField maskStar 4 2 1000).getD 2 0 = 1000 ∧
    (SDF.computeDistanceField maskStar 4 2 1000).getD 3 0 = 2000 ∧
    (SDF.computeDistanceField maskStar 4 2 1000).getD 4 0 = -2000 ∧
    (SDF.computeDistanceField maskStar 4 2 1000).getD 5 0 = -1000 ∧
    (SDF.computeDistanceField maskStar 4 2 1000).getD 6 0 = 1000 ∧
    (SDF.computeDistanceField maskStar 4 2 1000).getD 7 0 = 2000 := by
  refine ⟨?_, ?_, ?_, ?_, ?_, ?_, ?_, ?_⟩
  · simp only [SDF.computeDistanceField]
    rw [getD_range_map (4 * 2) _ 0 (by norm_num),
        if_pos (by decide : maskStar.getD 0 false = true), dI_star,
        show ([4, 1, 0, 0, 4, 1, 0, 0] : List ℚ).getD 0 0 = 4 from rfl, sqrt_q4]
    norm_num
  · simp only [SDF.computeDistanceField]
    rw [getD_range_map (4 * 2) _ 1 (by norm_num),
        if_pos (by decide : maskStar.getD 1 false = true), dI_star,
        show ([4, 1, 0, 0, 4, 1, 0, 0] : List ℚ).getD 1 0 = 1 from rfl, sqrt_q1]
    norm_num
  · simp only [SDF.computeDistanceField]
    rw [getD_range_map (4 * 2) _ 2 (by norm_num),
        if_neg (by decide : ¬(maskStar.getD 2 false = true)), dO_star,
        show ([0, 0, 1, 4, 0, 0, 1, 4] : List ℚ).getD 2 0 = 1 from rfl, sqrt_q1]
    norm_num
  · simp only [SDF.computeDistanceField]
    rw [getD_range_map (4 * 2) _ 3 (by norm_num),
        if_neg (by decide : ¬(maskStar.getD 3 false = true)), dO_star,
        show ([0, 0, 1, 4, 0, 0, 1, 4] : List ℚ).getD 3 0 = 4 from rfl, sqrt_q4]
    norm_num
  · simp only [SDF.computeDistanceField]
    rw [getD_range_map (4 * 2) _ 4 (by norm_num),
        if_pos (by decide : maskStar.getD 4 false = true), dI_star,
        show ([4, 1, 0, 0, 4, 1, 0, 0] : List ℚ).getD 4 0 = 4 from rfl, sqrt_q4]
    norm_num
  · simp only [SDF.computeDistanceField]
    rw [getD_range_map (4 * 2) _ 5 (by norm_num),
        if_pos (by decide : maskStar.getD 5 false = true), dI_star,
        show ([4, 1, 0, 0, 4, 1, 0, 0] : List ℚ).getD 5 0 = 1 from rfl, sqrt_q1]
    norm_num
  · simp only [SDF.computeDistanceField]
    rw [getD_range_map (4 * 2) _ 6 (by norm_num),
        if_neg (by decide : ¬(maskStar.getD 6 false = true)), dO_star,
        show ([0, 0, 1, 4, 0, 0, 1, 4] : List ℚ).getD 6 0 = 1 from rfl, sqrt_q1]
    norm_num
  · simp only [SDF.computeDistanceField]
    rw [getD_range_map (4 * 2) _ 7 (by norm_num),
        if_neg (by decide : ¬(maskStar.getD 7 false = true)), dO_star,
        show ([0, 0, 1, 4, 0, 0, 1, 4] : List ℚ).getD 7 0 = 4 from rfl, sqrt_q4]
    norm_num

theorem gradX_vals :
    sdfStar.gradientX.getD 1 0 = 3 / 2 ∧ sdfStar.gradientX.getD 2 0 = 3 / 2 ∧
    sdfStar.gradientX.getD 5 0 = 3 / 2 ∧ sdfStar.gradientX.getD 6 0 = 3 / 2 := by
  obtain ⟨hg0, hg1, hg2, hg3, hg4, hg5, hg6, hg7⟩ := cdf_vals
  refine ⟨?_, ?_, ?_, ?_⟩
  · show ((SDF.computeGradients (SDF.computeDistanceField maskStar 4 2 1000) 4 2 1000).1).getD
      1 0 = 3 / 2
    simp only [SDF.computeGradients]
    rw [getD_range_map (4 * 2) _ 1 (by norm_num)]
    norm_num [min_def]
    simp only [← List.getD_eq_getElem?_getD]
    rw [hg2, hg0]
    norm_num
  · show ((SDF.computeGradients (SDF.computeDistanceField maskStar 4 2 1000) 4 2 1000).1).getD
      2 0 = 3 / 2
    simp only [SDF.computeGradients]
    rw [getD_range_map (4 * 2) _ 2 (by norm_num)]
    norm_num [min_def]
    simp only [← List.getD_eq_getElem?_getD]
    rw [hg3, hg1]
    norm_num
  · show ((SDF.computeGradients (SDF.computeDistanceField maskStar 4 2 1000) 4 2 1000).1).getD
      5 0 = 3 / 2
    simp only [SDF.computeGradients]
    rw [getD_range_map (4 * 2) _ 5 (by norm_num)]
    norm_num [min_def]
    simp only [← List.getD_eq_getElem?_getD]
    rw [hg6, hg4]
    norm_num
  · show ((SDF.computeGradients (SDF.computeDistanceField maskStar 4 2 1000) 4 2 1000).1).getD
      6 0 = 3 / 2
    simp only [SDF.computeGradients]
    rw [getD_range_map (4 * 2) _ 6 (by norm_num)]
    norm_num [min_def]
    simp only [← List.getD_eq_getElem?_getD]
    rw [hg7, hg5]
    norm_num

theorem gradY_vals :
    sdfStar.gradientY.getD 1 0 = 0 ∧ sdfStar.gradientY.getD 2 0 = 0 ∧
    sdfStar.gradientY.getD 5 0 = 0 ∧ sdfStar.gradientY.getD 6 0 = 0 := by
  obtain ⟨hg0, hg1, hg2, hg3, hg4, hg5, hg6, hg7⟩ := cdf_vals
  refine ⟨?_, ?_, ?_, ?_⟩
  · show ((SDF.computeGradients (SDF.computeDistanceField maskStar 4 2 1000) 4 2 1000).2).getD
      1 0 = 0
    simp only [SDF.computeGradients]
    rw [getD_range_map (4 * 2) _ 1 (by norm_num)]
    norm_num [min_def]
    simp only [← List.getD_eq_getElem?_getD]
    rw [hg5, hg1]
    norm_num
  · show ((SDF.computeGradients (SDF.computeDistanceField maskStar 4 2 1000) 4 2 1000).2).getD
      2 0 = 0
    simp only [SDF.computeGradients]
    rw [getD_range_map (4 * 2) _ 2 (by norm_num)]
    norm_num [min_def]
    simp only [← List.getD_eq_getElem?_getD]
    rw [hg6, hg2]
    norm_num
  · show ((SDF.computeGradients (SDF.computeDistanceField maskStar 4 2 1000) 4 2 1000).2).getD
      5 0 = 0
    simp only [SDF.computeGradients]
    rw [getD_range_map (4 * 2) _ 5 (by norm_num)]
    norm_num [min_def]
    simp only [← List.getD_eq_getElem?_getD]
    rw [hg5, hg1]
    norm_num
  · show ((SDF.computeGradients (SDF.computeDistanceField maskStar 4 2 1000) 4 2 1000).2).getD
      6 0 = 0
    simp only [SDF.computeGradients]
    rw [getD_range_map (4 * 2) _ 6 (by norm_num)]
    norm_num [min_def]
    simp only [← List.getD_eq_getElem?_getD]
    rw [hg6, hg2]
    norm_num

theorem floor_gxStar : ⌊((1 + Real.sqrt 3) / 2 : ℝ)⌋ = 1 := by
  rw [Int.floor_eq_iff]
  constructor
  · push_cast
    linarith [one_lt_sqrt3]
  · push_cast
    linarith [sqrt3_lt_two]

theorem floor_gyStar : ⌊((Real.sqrt 3 - 1) / 2 : ℝ)⌋ = 0 := by
  rw [Int.floor_eq_iff]
  constructor
  · push_cast
    linarith [one_lt_sqrt3]
  · push_cast
    linarith [sqrt3_lt_two]

theorem getGridValue_in (g : List ℝ) (w h : ℕ) (x y : ℤ) (idx : ℕ)
    (hx0 : 0 ≤ x) (hxw : x < (w : ℤ)) (hy0 : 0 ≤ y) (hyh : y < (h : ℤ))
    (hidx : (y * (w : ℤ) + x).toNat = idx) :
    SDF.getGridValue g w h x y = JSVal.num (g.getD idx 0) := by
  unfold SDF.getGridValue
  rw [if_neg (by push_neg; exact ⟨hx0, hxw, hy0, hyh⟩), hidx]

theorem sampleBilinear_corners (g : List ℝ) (a b c d v : ℝ)
    (h1 : g.getD 1 0 = a) (h2 : g.getD 2 0 = b)
    (h5 : g.getD 5 0 = c) (h6 : g.getD 6 0 = d)
    (hv : (a * (1 - ((1 + Real.sqrt 3) / 2 - 1)) + b * ((1 + Real.sqrt 3) / 2 - 1)) *
          (1 - (Real.sqrt 3 - 1) / 2) +
        (c * (1 - ((1 + Real.sqrt 3) / 2 - 1)) + d * ((1 + Real.sqrt 3) / 2 - 1)) *
          ((Real.sqrt 3 - 1) / 2) = v) :
    SDF.sampleBilinear sdfStar g ((1 + Real.sqrt 3) / 2) ((Real.sqrt 3 - 1) / 2) =
      JSVal.num v := by
  simp only [SDF.sampleBilinear]
  rw [show sdfStar.gridWidth = 4 from rfl, show sdfStar.gridHeight = 2 from rfl,
      floor_gxStar, floor_gyStar]
  rw [getGridValue_in g 4 2 1 0 1 (by decide) (by decide) (by decide) (by decide) (by decide),
      getGridValue_in g 4 2 (min (1 + 1) (((4 : ℕ) : ℤ) - 1)) 0 2
        (by decide) (by decide) (by decide) (by decide) (by decide),
      getGridValue_in g 4 2 1 (min (0 + 1) (((2 : ℕ) : ℤ) - 1)) 5
        (by decide) (by decide) (by decide) (by decide) (by decide),
      getGridValue_in g 4 2 (min (1 + 1) (((4 : ℕ) : ℤ) - 1)) (min (0 + 1) (((2 : ℕ) : ℤ) - 1)) 6
        (by decide) (by decide) (by decide) (by decide) (by decide)]
  simp only [JSVal.jscale, JSVal.jadd]
  rw [h1, h2, h5, h6]
  exact congrArg JSVal.num (by rw [← hv]; push_cast; ring)

theorem gxStar_eq : xStar / sdfStar.resolution = (1 + Real.sqrt 3) / 2 := by
  rw [sdfStar_resolution, xStar, G2]
  ring

theorem gyStar_eq : yStar / sdfStar.resolution = (Real.sqrt 3 - 1) / 2 := by
  rw [sdfStar_resolution, yStar, G2]
  ring

theorem getDistance_star :
    SDF.getDistance sdfStar xStar yStar = JSVal.num (1000 * Real.sqrt 3 - 2000) := by
  obtain ⟨hg0, hg1, hg2, hg3, hg4, hg5, hg6, hg7⟩ := cdf_vals
  unfold SDF.getDistance
  rw [if_neg (by rw [sdfStar_loaded]; decide), gxStar_eq, gyStar_eq]
  exact sampleBilinear_corners sdfStar.grid (-1000) 1000 (-1000) 1000
    (1000 * Real.sqrt 3 - 2000) hg1 hg2 hg5 hg6 (by ring)

theorem getGradient_star :
    SDF.getGradient sdfStar xStar yStar = (JSVal.num 1, JSVal.num 0) := by
  obtain ⟨hx1, hx2, hx5, hx6⟩ := gradX_vals
  obtain ⟨hy1, hy2, hy5, hy6⟩ := gradY_vals
  simp only [SDF.getGradient]
  rw [if_neg (by rw [sdfStar_loaded]; decide), gxStar_eq, gyStar_eq]
  rw [sampleBilinear_corners sdfStar.gradientX (3 / 2) (3 / 2) (3 / 2) (3 / 2) (3 / 2)
        hx1 hx2 hx5 hx6 (by ring),
      sampleBilinear_corners sdfStar.gradientY 0 0 0 0 0 hy1 hy2 hy5 hy6 (by ring)]
  simp only [JSVal.jmul, JSVal.jadd]
  rw [show ((3 : ℝ) / 2 * (3 / 2) + 0 * 0 : ℝ) = (3 / 2 : ℝ) ^ 2 by norm_num]
  simp only [JSVal.jsqrt]
  rw [if_neg (by norm_num : ¬(((3 : ℝ) / 2) ^ 2 < 0)),
      Real.sqrt_sq (by norm_num : (0 : ℝ) ≤ 3 / 2)]
  simp only [JSVal.jltB]
  rw [if_neg (show ¬(decide ((3 : ℝ) / 2 < 1e-4) = true) by
        simp only [decide_eq_true_eq]; norm_num)]
  simp only [JSVal.jdiv]
  rw [if_neg (by norm_num : ¬((3 : ℝ) / 2 = 0)), if_neg (by norm_num : ¬((3 : ℝ) / 2 = 0)),
      show ((3 : ℝ) / 2 / (3 / 2) : ℝ) = 1 by norm_num,
      show ((0 : ℝ) / (3 / 2) : ℝ) = 0 by norm_num]

theorem getAngle_ffStar : FlowField.getAngle ffStar xStar yStar = Real.pi := by
  have ha : noise2D (mkSimplexNoise 1) (2000 - 3000 * G2) (1000 - 3000 * G2) = 0 := by
    have h := noise2D_lattice (mkSimplexNoise 1) 2000 1000
    rw [show ((2000 : ℤ) : ℝ) - (((2000 : ℤ) : ℝ) + ((1000 : ℤ) : ℝ)) * G2
          = 2000 - 3000 * G2 by push_cast; ring,
        show ((1000 : ℤ) : ℝ) - (((2000 : ℤ) : ℝ) + ((1000 : ℤ) : ℝ)) * G2
          = 1000 - 3000 * G2 by push_cast; ring] at h
    exact h
  have hb : noise2D (mkSimplexNoise 1) (3000 - 3000 * G2) (-3000 * G2) = 0 := by
    have h := noise2D_lattice (mkSimplexNoise 1) 3000 0
    rw [show ((3000 : ℤ) : ℝ) - (((3000 : ℤ) : ℝ) + ((0 : ℤ) : ℝ)) * G2
          = 3000 - 3000 * G2 by push_cast; ring,
        show ((0 : ℤ) : ℝ) - (((3000 : ℤ) : ℝ) + ((0 : ℤ) : ℝ)) * G2
          = -3000 * G2 by push_cast; ring] at h
    exact h
  have h3 : FlowField.noise3D (mkSimplexNoise 1) (xStar * 1) (yStar * 1) (-3000 * G2) = 0 := by
    unfold FlowField.noise3D
    rw [mul_one, mul_one, xStar, yStar,
        show (2000 - 3000 * G2 : ℝ) + 1000 = 3000 - 3000 * G2 by ring,
        show (1000 - 3000 * G2 : ℝ) + 2000 = 3000 - 3000 * G2 by ring,
        ha, hb]
    norm_num
  unfold FlowField.getAngle
  rw [show ffStar.noise = mkSimplexNoise 1 from rfl, show ffStar.scale = 1 from rfl,
      show ffStar.zOffset = -3000 * G2 from rfl, show ffStar.octaves.toNat = 1 from rfl,
      getAngleWith_one, h3]
  norm_num

theorem blendVector_eval (f : FlowField) (sd : SDF) (x y dr gx gy : ℝ)
    (hsdf : f.sdf = some sd) (hload : sd.loaded = true)
    (hd : SDF.getDistance sd x y = JSVal.num dr)
    (hg : SDF.getGradient sd x y = (JSVal.num gx, JSVal.num gy))
    (hcond : |dr| < f.sdfFalloff ∧ (gx ≠ 0 ∨ gy ≠ 0)) (hdr : dr < 0) :
    FlowField.blendVector f x y =
      (Real.cos (FlowField.getAngle f x y) *
          (1 - (1 - |dr| / f.sdfFalloff * (|dr| / f.sdfFalloff)) * f.sdfStrength) +
        gx * ((1 - |dr| / f.sdfFalloff * (|dr| / f.sdfFalloff)) * f.sdfStrength),
       Real.sin (FlowField.getAngle f x y) *
          (1 - (1 - |dr| / f.sdfFalloff * (|dr| / f.sdfFalloff)) * f.sdfStrength) +
        gy * ((1 - |dr| / f.sdfFalloff * (|dr| / f.sdfFalloff)) * f.sdfStrength)) := by
  simp only [FlowField.blendVector, hsdf]
  rw [if_neg (by rw [hload]; decide)]
  rw [hd, hg]
  dsimp only
  rw [if_pos hcond, if_pos hdr]

theorem sqrt3_gt_half3 : (3 / 2 : ℝ) < Real.sqrt 3 := by
  nlinarith [sqrt3_mul_self, Real.sqrt_nonneg 3]

theorem blendVector_star : FlowField.blendVector ffStar xStar yStar = (1 / 20000, 0) := by
  have hdr : (1000 * Real.sqrt 3 - 2000 : ℝ) < 0 := by nlinarith [sqrt3_lt_two]
  have hfall : ffStar.sdfFalloff = 1000 := rfl
  have hstr : ffStar.sdfStrength = 20001 / 40000 / (4 * Real.sqrt 3 - 6) := rfl
  have habs : |(1000 * Real.sqrt 3 - 2000 : ℝ)| = 2000 - 1000 * Real.sqrt 3 := by
    rw [abs_of_neg hdr]; ring
  have hcond : |(1000 * Real.sqrt 3 - 2000 : ℝ)| < ffStar.sdfFalloff ∧
      ((1 : ℝ) ≠ 0 ∨ (0 : ℝ) ≠ 0) := by
    refine ⟨?_, Or.inl one_ne_zero⟩
    rw [habs, hfall]
    linarith [one_lt_sqrt3]
  rw [blendVector_eval ffStar sdfStar xStar yStar (1000 * Real.sqrt 3 - 2000) 1 0 rfl rfl
      getDistance_star getGradient_star hcond hdr]
  rw [getAngle_ffStar, Real.cos_pi, Real.sin_pi, habs, hfall, hstr]
  have hden : (4 * Real.sqrt 3 - 6 : ℝ) ≠ 0 := ne_of_gt (by linarith [sqrt3_gt_half3])
  have hfac : (1 - (2000 - 1000 * Real.sqrt 3) / 1000 * ((2000 - 1000 * Real.sqrt 3) / 1000)
      : ℝ) = 4 * Real.sqrt 3 - 6 := by
    linear_combination (-1 : ℝ) * sqrt3_mul_self
  rw [hfac, Prod.mk.injEq]
  constructor
  · field_simp
    ring
  · ring

theorem blend_mag_star :
    Real.sqrt ((FlowField.blendVector ffStar xStar yStar).1 *
        (FlowField.blendVector ffStar xStar yStar).1 +
      (FlowField.blendVector ffStar xStar yStar).2 *
        (FlowField.blendVector ffStar xStar yStar).2) = 1 / 20000 := by
  rw [blendVector_star,
      show (((1 / 20000 : ℝ), (0 : ℝ)).1 * ((1 / 20000 : ℝ), (0 : ℝ)).1 +
        ((1 / 20000 : ℝ), (0 : ℝ)).2 * ((1 / 20000 : ℝ), (0 : ℝ)).2) = (1 / 20000 : ℝ) ^ 2 by
          norm_num,
      Real.sqrt_sq (by norm_num : (0 : ℝ) ≤ 1 / 20000)]

theorem getVector_star : FlowField.getVector ffStar xStar yStar = (1 / 20000, 0) := by
  simp only [FlowField.getVector]
  rw [if_neg (by rw [blend_mag_star]; norm_num)]
  exact blendVector_star

theorem getVector_mag_star :
    Real.sqrt ((FlowField.getVector ffStar xStar yStar).1 *
        (FlowField.getVector ffStar xStar yStar).1 +
      (FlowField.getVector ffStar xStar yStar).2 *
        (FlowField.getVector ffStar xStar yStar).2) = 1 / 20000 := by
  rw [getVector_star,
      show (((1 / 20000 : ℝ), (0 : ℝ)).1 * ((1 / 20000 : ℝ), (0 : ℝ)).1 +
        ((1 / 20000 : ℝ), (0 : ℝ)).2 * ((1 / 20000 : ℝ), (0 : ℝ)).2) = (1 / 20000 : ℝ) ^ 2 by
          norm_num,
      Real.sqrt_sq (by norm_num : (0 : ℝ) ≤ 1 / 20000)]

/-- C1 counterexample: at the position `(xStar, yStar)` the field `ffStar`
(with its loaded SDF) blends the unit flow vector down to the tiny nonzero
vector `(1/20000, 0)`; `getVector` returns it unnormalized, so the result is
neither `(0, 0)` nor of magnitude 1 within `1e-3`, even though the blended
magnitude `1/20000` does not exceed the `1e-4` threshold. -/
theorem c1_counterexample :
    FlowField.getVector ffStar xStar yStar ≠ (0, 0) ∧
    Real.sqrt ((FlowField.getVector ffStar xStar yStar).1 *
        (FlowField.getVector ffStar xStar yStar).1 +
      (FlowField.getVector ffStar xStar yStar).2 *
        (FlowField.getVector ffStar xStar yStar).2) ≤ 0.0001 ∧
    ¬(|Real.sqrt ((FlowField.getVector ffStar xStar yStar).1 *
        (FlowField.getVector ffStar xStar yStar).1 +
      (FlowField.getVector ffStar xStar yStar).2 *
        (FlowField.getVector ffStar xStar yStar).2) - 1| ≤ 1 / 1000) := by
  refine ⟨?_, ?_, ?_⟩
  · rw [getVector_star]
    intro hc
    rw [Prod.mk.injEq] at hc
    norm_num at hc
  · rw [getVector_mag_star]
    norm_num
  · rw [getVector_mag_star,
        abs_of_nonpos (by norm_num : (1 / 20000 : ℝ) - 1 ≤ 0)]
    norm_num

/-- C1 witness: the normalization dichotomy instantiated at `ffStar` and
`(xStar, yStar)`, where the blended magnitude is below the threshold and the
unnormalized blended vector is returned. -/
theorem c1_unit_or_small_witness :
    (Real.sqrt ((FlowField.getVector ffStar xStar yStar).1 *
          (FlowField.getVector ffStar xStar yStar).1 +
        (FlowField.getVector ffStar xStar yStar).2 *
          (FlowField.getVector ffStar xStar yStar).2) = 1 ∨
      Real.sqrt ((FlowField.getVector ffStar xStar yStar).1 *
          (FlowField.getVector ffStar xStar yStar).1 +
        (FlowField.getVector ffStar xStar yStar).2 *
          (FlowField.getVector ffStar xStar yStar).2) ≤ 0.0001) ∧
    FlowField.getVector ffStar xStar yStar = FlowField.blendVector ffStar xStar yStar :=
  ⟨(c1_unit_or_small ffStar xStar yStar).1,
   (c1_unit_or_small ffStar xStar yStar).2 (by rw [blend_mag_star]; norm_num)⟩

/-- C7 witness: the angle range instantiated at the constant-zero noise,
scale 1, `z = 0`, one octave, and the origin. -/
theorem c7_angle_range_witness :
    ((-1 : ℝ) ≤ (FlowField.fbmLoop (fun _ _ _ => 0) 0 0 0 1 1).1 /
        (FlowField.fbmLoop (fun _ _ _ => 0) 0 0 0 1 1).2.2.2 ∧
      (FlowField.fbmLoop (fun _ _ _ => 0) 0 0 0 1 1).1 /
        (FlowField.fbmLoop (fun _ _ _ => 0) 0 0 0 1 1).2.2.2 ≤ 1 ∧
      FlowField.getAngleWith (fun _ _ _ => 0) 1 0 1 0 0 ∈ Set.Icc 0 (2 * Real.pi)) :=
  c7_angle_range (fun _ _ _ => 0) 1 0 0 0 1
    (fun _ _ _ => by norm_num) (by norm_num) (by norm_num)
